import Mathlib

/-!
Verification development for the Blender-to-TikZ curve exporter
(`GenerateTechFile.py`).  The Python source is shallowly embedded below:
pure string-building code becomes Lean functions on `String`/`List Char`,
Python floats are modelled as `ℚ`, the mutable module-level
`used_materials` dictionary becomes explicit state passing of an
association list with Python-dict insertion semantics, and operations
that can raise a Python exception return `Except String _` (the error
string names the exception).
-/

namespace TikzExport

/-! ### Python string primitives -/

/-- Characters Python's `str.strip` / `str.split` treat as whitespace. -/
def isPySpace (c : Char) : Bool :=
  c = ' ' || c = '\t' || c = '\n' || c = '\r' || c = '\x0b' || c = '\x0c'

/-- `str.strip()`: drop leading and trailing whitespace. -/
def pyStrip (s : String) : String :=
  String.mk (((s.data.dropWhile isPySpace).reverse.dropWhile isPySpace).reverse)

/-- Does the pattern (first argument) occur at the very start of the text? -/
def strStarts : List Char → List Char → Bool
  | [], _ => true
  | _ :: _, [] => false
  | p :: ps, c :: cs => p == c && strStarts ps cs

/-- Python `str.find`: index of the first occurrence of `pat`, or `-1`. -/
def pyFind (pat : List Char) : List Char → Int
  | [] => if pat = [] then 0 else -1
  | c :: rest =>
    if strStarts pat (c :: rest) then 0
    else
      let r := pyFind pat rest
      if r < 0 then -1 else r + 1

/-- `pat` occurs somewhere inside `s`. -/
def containsL (pat s : List Char) : Prop := ∃ a b, s = a ++ pat ++ b

/-- Python `str.split()` with no argument: maximal runs of non-whitespace. -/
def pySplitAux : List Char → List Char → List (List Char)
  | [], acc => if acc = [] then [] else [acc.reverse]
  | c :: rest, acc =>
    if isPySpace c then
      if acc = [] then pySplitAux rest [] else acc.reverse :: pySplitAux rest []
    else pySplitAux rest (c :: acc)

def pySplit (s : String) : List String :=
  (pySplitAux s.data []).map String.mk

/-- `str.replace("\n", " ")`: single-character replacement is a char map. -/
def replNl (s : String) : String :=
  String.mk (s.data.map (fun c => if c = '\n' then ' ' else c))

/-- Single-character `str.replace(a, b)` as used by `mreplace`. -/
def mreplace1 (a b : Char) (s : String) : String :=
  String.mk (s.data.map (fun c => if c = a then b else c))

/-- `str.rstrip()`: drop trailing whitespace. -/
def pyRstrip (s : String) : String :=
  String.mk ((s.data.reverse.dropWhile isPySpace).reverse)

/-- Model of `textwrap.wrap(text, width, subsequent_indent, break_long_words=False)`:
greedy packing of the whitespace-split words, later lines indented. -/
def pyWrapAux (width : Nat) (indent : String) : List String → String → List String
  | [], cur => [cur]
  | w :: ws, cur =>
    if cur.length + 1 + w.length ≤ width then pyWrapAux width indent ws (cur ++ " " ++ w)
    else cur :: pyWrapAux width indent ws (indent ++ w)

def pyWrap (text : String) (width : Nat) (indent : String) : List String :=
  match pySplit text with
  | [] => []
  | w :: ws => pyWrapAux width indent ws w

/-- Concatenation of a list of strings. -/
def strConcat : List String → String
  | [] => ""
  | a :: rest => a ++ strConcat rest

/-- Python `sep.join(list)`. -/
def pyJoin (sep : String) : List String → String
  | [] => ""
  | a :: rest => a ++ strConcat (rest.map (fun x => sep ++ x))

/-! ### Numeric formatting -/

/-- One decimal digit as a character (only ever called with `d < 10`). -/
def digitChar : Nat → Char
  | 0 => '0' | 1 => '1' | 2 => '2' | 3 => '3' | 4 => '4'
  | 5 => '5' | 6 => '6' | 7 => '7' | 8 => '8' | _ => '9'

/-- Decimal digits of a natural number, most significant first.  The fuel
argument (any bound on the digit count, here `n + 1`) keeps the recursion
structural so that concrete values reduce in the kernel. -/
def natDecGo : Nat → Nat → List Char
  | 0, _ => []
  | fuel + 1, n =>
    if n < 10 then [digitChar n]
    else natDecGo fuel (n / 10) ++ [digitChar (n % 10)]

def natDecAux (n : Nat) : List Char := natDecGo (n + 1) n

def natToDec (n : Nat) : String := String.mk (natDecAux n)

/-- Exactly four decimal digits (zero padded), for `n < 10000`. -/
def natDigits4 (n : Nat) : List Char :=
  [digitChar (n / 1000 % 10), digitChar (n / 100 % 10), digitChar (n / 10 % 10),
   digitChar (n % 10)]

/-- `⌊q * 10000 + 1/2⌋` computed on the `num`/`den` representation with
plain integer operations, so that concrete values reduce in the kernel
(`Int` division is Euclidean, i.e. floor division for the positive
denominator; see `round4_eq` below). -/
def round4 (q : ℚ) : Int := (20000 * q.num + q.den) / (2 * q.den)

/-- Model of Python's `"%.4f" % q`: round to four decimals (our inputs are
exact four-decimal values, so the tie-breaking rule is irrelevant),
with a `-` sign exactly when the rounded value is negative. -/
def fmt4 (q : ℚ) : String :=
  let n : Int := round4 q
  let m := n.natAbs
  (if n < 0 then "-" else "") ++ natToDec (m / 10000) ++ "." ++ String.mk (natDigits4 (m % 10000))

/-- Model of Python's `str(float)` (the `%s` / f-string conversion) for the
decimal rationals appearing in scenes: minimal decimal digits, at least one
digit after the point. -/
def decRepr (q : ℚ) : String :=
  let na : Nat := q.num.natAbs
  let ip : Nat := na / q.den
  let rem : Nat := na % q.den
  let d17 : Nat := rem * 100000000000000000 / q.den
  let raw := natDecAux d17
  let padded := List.replicate (17 - raw.length) '0' ++ raw
  let trimmed := (padded.reverse.dropWhile (fun c => c = '0')).reverse
  let frac := if trimmed = [] then "0" else String.mk trimmed
  (if q.num < 0 then "-" else "") ++ natToDec ip ++ "." ++ frac

/-! ### Data model (host scene objects, read once per export) -/

/-- A 2D point; Blender vectors' `z` is never read from knot/handle data. -/
structure Pt where
  x : ℚ
  y : ℚ
deriving DecidableEq

/-- One Bezier control point: `handle_left`, `co` (the knot), `handle_right`. -/
structure BezierPoint where
  handle_left : Pt
  co : Pt
  handle_right : Pt
deriving DecidableEq

/-- A spline as the source reads it: `spline.type` is the host's type string
("BEZIER" / "POLY" / anything else), `bezier_points` the Bezier control
points, `SplinePoint` the polyline point collection (named after the
attribute the source accesses), `use_cyclic_u` the closed flag. -/
structure Spline where
  type : String
  bezier_points : List BezierPoint
  SplinePoint : List Pt
  use_cyclic_u : Bool
deriving DecidableEq

/-- A material: host attribute reads that the source performs without a
`try` block (`rgbCol`, `specCol`, `alpha`, `getMode()`) are modelled as
`Except`, `.error e` meaning the access raises exception `e`; the
ID-property bag (`material.properties[...]`, whose `KeyError` the source
catches) is an association list. -/
structure PyMaterial where
  name : String
  properties : List (String × String)
  rgbCol : Except String (List ℚ)
  specCol : Except String (List ℚ)
  alpha : Except String ℚ
  getMode : Except String Int

/-- A game property as returned by `obj.getProperty`. -/
structure GameProp where
  type : String
  data : String

/-- Only the translation part of the host matrices is ever emitted, so
matrices are modelled by their translation (identity rotation/scale). -/
structure PyMatrixT where
  tx : ℚ
  ty : ℚ
  tz : ℚ

/-- A selected scene object with the attributes the source reads.
`parentName` stands for the parent reference (Blender object names are
unique, so keying the empties dictionary by name is faithful);
`data_materials` models `obj.data.materials`, whose access the source
wraps in `try` (hence `Except`). -/
structure PyObject where
  name : String
  locX : ℚ
  locY : ℚ
  locZ : ℚ
  rotZ : ℚ
  scaleX : ℚ
  scaleY : ℚ
  scaleZ : ℚ
  type : String
  splines : List Spline
  data_materials : Except String (List (Option PyMaterial))
  props : List (String × String)
  gameProps : List (String × GameProp)
  parentName : Option String
  matrix_world : PyMatrixT
  mat : PyMatrixT
  matrix : PyMatrixT

/-- The global `used_materials` dictionary: an insertion-ordered map. -/
def MatTable : Type := List (String × PyMaterial)

/-- Options bundle threaded through the export (the operator's BoolPropertys). -/
structure Options where
  USE_PLOTPATH : Bool
  WRAP_LINES : Bool
  DRAW_CURVE : Bool
  FILL_CLOSED_CURVE : Bool
  TRANSFORM_CURVE : Bool
  EXPORT_MATERIALS : Bool
  EMPTIES : Bool
  ONLY_PROPERTIES : Bool
  STANDALONE : Bool
  CODE_ONLY : Bool
  CLIPBOARD_OUTPUT : Bool

/-! ### Utility functions from the source -/

/-- `nsplit(seq, 2)`: consecutive pairs, remainder discarded. -/
def nsplit2 {α : Type} : List α → List (α × α)
  | a :: b :: rest => (a, b) :: nsplit2 rest
  | _ => []

/-- `tikzify`: transliterate reserved characters if the stripped name is
nonempty (`mreplace(s, r'\,:.', '-+_*')`, four sequential single-character
replaces). -/
def tikzify (s : String) : String :=
  if pyStrip s ≠ "" then
    mreplace1 '.' '*' (mreplace1 ':' '_' (mreplace1 ',' '+' (mreplace1 '\\' '-' s)))
  else ""

/-- `get_property(obj, name)`: the ID-property value if present, then the
game property's data when it is a STRING with nonempty strip; lookup
failures are caught and treated as absent. -/
def get_property (o : PyObject) (name : String) : List String :=
  (match o.props.lookup name with
   | some v => [v]
   | none => []) ++
  (match o.gameProps.lookup name with
   | some p => if p.type = "STRING" ∧ pyStrip p.data ≠ "" then [p.data] else []
   | none => [])

/-- `get_material(material)`: returns "" for a falsy material, otherwise
registers the material in `used_materials` under its tikzified name and
returns that name.  The global dictionary becomes an explicit argument and
result. -/
def pyDictInsert (k : String) (v : PyMaterial) : MatTable → MatTable
  | [] => [(k, v)]
  | (k', v') :: rest => if k' = k then (k', v) :: rest else (k', v') :: pyDictInsert k v rest

def get_material (tbl : MatTable) : Option PyMaterial → String × MatTable
  | none => ("", tbl)
  | some m => (tikzify m.name, pyDictInsert (tikzify m.name) m tbl)

/-! ### write_materials -/

/-- Truthiness of `proponly` after the guarded `onlyproperties` lookup:
absent keeps the passed-in default; a string value is truthy and not in
`('0', 'false')` (lower-cased) to count as set. -/
def proponlyTruthy (m : PyMaterial) (d : Bool) : Bool :=
  match m.properties.lookup "onlyproperties" with
  | none => d
  | some s => decide (s ≠ "") && !(s.toLower = "0" || s.toLower = "false")

/-- The text `write_materials` appends for one registered material.
`rgbCol`/`specCol`/`alpha`/`getMode` are read unguarded (in this order)
before the branch, so a failing access raises out of the function. -/
def matChunk (d : Bool) (m : PyMaterial) : Except String String := do
  let mat_name := tikzify m.name
  let matopts := (m.properties.lookup "style").getD ""
  let proponly := proponlyTruthy m d
  let rgb ← m.rgbCol
  let _spec ← m.specCol
  let alpha ← m.alpha
  let _flags ← m.getMode
  let (colorText, colorOpts) ←
    if ¬ (proponly ∧ matopts ≠ "") then
      match rgb with
      | [r, g, b] =>
        pure ("\\definecolor\x7b" ++ mat_name ++ "_col\x7d\x7brgb\x7d\x7b" ++
              decRepr r ++ "," ++ decRepr g ++ "," ++ decRepr b ++ "\x7d\n",
              [mat_name ++ "_col"] ++
                (if alpha < 1 then ["opacity=" ++ decRepr alpha] else []))
      | _ => Except.error "TypeError"
    else pure ("", [])
  let options := colorOpts ++ (if matopts ≠ "" then [matopts] else [])
  pure (colorText ++ "\\tikzstyle\x7b" ++ mat_name ++ "\x7d= [" ++
        pyJoin "," options ++ "]\n")

def writeMaterialsAux (d : Bool) : List PyMaterial → Except String String
  | [] => pure ""
  | m :: rest => do
    let c ← matChunk d m
    let r ← writeMaterialsAux d rest
    pure (c ++ r)

/-- `write_materials(used_materials, ONLY_PROPERTIES)`: header comment plus
one chunk per dictionary value, in insertion order. -/
def writeMaterials (tbl : MatTable) (d : Bool) : Except String String := do
  let body ← writeMaterialsAux d (tbl.map Prod.snd)
  pure ("% Materials section \n" ++ body)

/-! ### Spline serialization (write_object) -/

/-- Indexing `l[i]`, raising `IndexError` when out of range. -/
def pyIndex {α : Type} (l : List α) (i : Nat) : Except String α :=
  match l[i]? with
  | some a => Except.ok a
  | none => Except.error "IndexError"

/-- `"(+%.4f,+%.4f)" % (p.x, p.y)` — Bezier knots and handles. -/
def bezPair (p : Pt) : String :=
  "(+" ++ fmt4 p.x ++ ",+" ++ fmt4 p.y ++ ")"

/-- `"controls (+%.4f,+%.4f) and (+%.4f,+%.4f)" % (h1.x, h1.y, h2.x, h2.y)`. -/
def ctrlStr (h1 h2 : Pt) : String :=
  "controls " ++ bezPair h1 ++ " and " ++ bezPair h2

/-- The polyline coordinate f-string `f"(+{point.co.x}.4f,+{point.co.y}.4f)"`:
the `.4f` sits outside the braces, so the output is the float repr followed
by the literal characters `.4f`. -/
def polyPair (p : Pt) : String :=
  "(+" ++ decRepr p.x ++ ".4f,+" ++ decRepr p.y ++ ".4f)"

/-- Knot strings of a Bezier spline, in control-point order. -/
def bezKnots (sp : Spline) : List String :=
  sp.bezier_points.map (fun p => bezPair p.co)

/-- Raw handle list: `handles.extend([h1, h2])` per control point. -/
def bezRawHandles (sp : Spline) : List Pt :=
  sp.bezier_points.flatMap (fun p => [p.handle_left, p.handle_right])

/-- The handle list actually consumed: closed splines do
`handles[1:] + [handles[0]]`, open splines `handles[1:-1]`. -/
def bezHandles2 (sp : Spline) : Except String (List Pt) :=
  let handles := bezRawHandles sp
  if sp.use_cyclic_u then do
    let h0 ← pyIndex handles 0
    pure (handles.drop 1 ++ [h0])
  else pure ((handles.drop 1).dropLast)

/-- The knot strings actually consumed: closed splines append `knots[0]`. -/
def bezKnots2 (sp : Spline) : Except String (List String) :=
  let knots := bezKnots sp
  if sp.use_cyclic_u then do
    let k0 ← pyIndex knots 0
    pure (knots ++ [k0])
  else pure knots

/-- `"-- %s" / "  -- %s\n  "` joining in the explicit wrapped polyline mode:
counter `i` starts at 1 and a line break is forced every third segment. -/
def wrapJoin3 : Nat → List String → String
  | _, [] => ""
  | i, c :: rest =>
    (if i % 3 ≠ 0 then "-- " ++ c else "  -- " ++ c ++ "\n  ") ++ wrapJoin3 (i + 1) rest

/-- One iteration of the spline loop of `write_object`: extends (or, in the
plot-path wrapped mode, rewraps) the accumulated path expression `acc`.
Unsupported spline types leave `acc` unchanged (`continue`). -/
def splineStep (o : PyObject) (opt : Options) (acc : String) (sp : Spline) :
    Except String String :=
  if sp.type = "BEZIER" then do
    let handles2 ← bezHandles2 sp
    let knots2 ← bezKnots2 sp
    let hh := (nsplit2 handles2).map (fun hp => ctrlStr hp.1 hp.2)
    let k0 ← pyIndex knots2 0
    let segs := (hh.zip (knots2.drop 1)).map
      (fun hk => "  .. " ++ hk.1 ++ " .. " ++ hk.2 ++ "\n")
    pure (acc ++ k0 ++ "\n" ++ strConcat segs ++
          (if sp.use_cyclic_u then "  -- cycle\n" else ""))
  else if sp.type = "POLY" then
    let coords := sp.SplinePoint.map polyPair
    if opt.USE_PLOTPATH then
      let plotopts := get_property o "plotstyle"
      let poptstr := if plotopts ≠ [] then "[" ++ pyJoin "," plotopts ++ "]" else ""
      let ps1 := acc ++ " plot" ++ poptstr ++ " coordinates \x7b" ++
                 pyJoin " " coords ++ "\x7d"
      let ps2 := if sp.use_cyclic_u then ps1 ++ " -- cycle" else ps1
      pure (if opt.WRAP_LINES then pyJoin "\n" (pyWrap ps2 80 "  ") else ps2)
    else do
      let coords2 ←
        if sp.use_cyclic_u then do
          let c0 ← pyIndex coords 0
          pure (coords ++ [c0, "cycle\n  "])
        else pure coords
      if opt.WRAP_LINES then do
        let c0 ← pyIndex coords2 0
        pure (acc ++ c0 ++ "\n  " ++ wrapJoin3 1 (coords2.drop 1))
      else
        pure (acc ++ pyJoin " -- " coords2)
  else pure acc

/-- The accumulated path expression of a curve object (the spline loop). -/
def objPs (o : PyObject) (opt : Options) : Except String String :=
  o.splines.foldlM (splineStep o opt) ""

/-- `get` with a default for the guarded `obj.data.materials` access. -/
def exceptD {α : Type} : Except String α → α → α
  | Except.ok a, _ => a
  | Except.error _, d => d

/-- `for mat in materials: if mat: ... break` — the first non-null slot. -/
def firstMat : List (Option PyMaterial) → Option PyMaterial
  | [] => none
  | some m :: _ => some m
  | none :: rest => firstMat rest

/-- Transform options: only the non-identity components, `%.4f` formatted. -/
def transformOpts (o : PyObject) : List String :=
  (if o.locX ≠ 0 then ["xshift=" ++ fmt4 o.locX ++ "cm"] else []) ++
  (if o.locY ≠ 0 then ["yshift=" ++ fmt4 o.locY ++ "cm"] else []) ++
  (if o.rotZ ≠ 0 then ["rotate=" ++ fmt4 o.rotZ] else []) ++
  (if o.scaleX ≠ 1 then ["xscale=" ++ fmt4 o.scaleX] else []) ++
  (if o.scaleY ≠ 1 then ["yscale=" ++ fmt4 o.scaleY] else [])

/-- The option list of a curve object's path statement, in source order:
draw flag, fill flag (only when `ps.find('cycle') > 0`), transforms,
material token, then the `style` property tokens. -/
def objOptions (o : PyObject) (opt : Options) (ps : String) : List String :=
  (if opt.DRAW_CURVE then ["draw"] else []) ++
  (if opt.FILL_CLOSED_CURVE ∧ 0 < pyFind "cycle".data ps.data then ["fill"] else []) ++
  (if opt.TRANSFORM_CURVE then transformOpts o else []) ++
  (if opt.EXPORT_MATERIALS then
    match firstMat (exceptD o.data_materials []) with
    | some m => [tikzify m.name]
    | none => []
   else []) ++
  get_property o "style"

/-- Named-coordinate lines for the parented empties of a curve.  The two
matrix expressions of the source coincide on translation-only matrices
(the modelled case): both give the child's translation minus the parent's. -/
def emptStr (o : PyObject) (emptD : List (String × List PyObject)) (opt : Options) : String :=
  if opt.EMPTIES then
    match emptD.lookup o.name with
    | some l =>
      strConcat (l.map (fun e =>
        let ex := if opt.TRANSFORM_CURVE then e.mat.tx - o.mat.tx else e.matrix.tx - o.matrix.tx
        let ey := if opt.TRANSFORM_CURVE then e.mat.ty - o.mat.ty else e.matrix.ty - o.matrix.ty
        "  (+" ++ fmt4 ex ++ ",+" ++ fmt4 ey ++ ") coordinate (" ++ e.name ++ ")\n"))
    | none => ""
  else ""

/-- The text output of `write_object` (everything except the
`used_materials` side effect, which `objRegister` below captures). -/
def writeObjectStr (o : PyObject) (emptD : List (String × List PyObject)) (opt : Options) :
    Except String String :=
  if ¬ (o.type = "CURVE" ∨ o.type = "Empty") then Except.ok ""
  else if o.type = "CURVE" then do
    let ps ← objPs o opt
    if ps = "" then pure ("% " ++ o.name ++ "\n")
    else
      let optstr := pyJoin "," (objOptions o opt ps)
      let es := emptStr o emptD opt
      let ps2 := if ¬ opt.WRAP_LINES then pyJoin " " (pySplit (replNl ps)) else ps
      if 50 < optstr.length ∨ es ≠ "" then
        pure ("% " ++ o.name ++ "\n" ++ "\\path[" ++ optstr ++ "]\n" ++ es ++ "  " ++
              pyRstrip ps2 ++ ";\n")
      else
        pure ("% " ++ o.name ++ "\n" ++ "\\path[" ++ optstr ++ "] " ++ pyRstrip ps2 ++ ";\n")
  else
    if opt.EMPTIES ∧ o.parentName = none then
      Except.ok ("\\coordinate (" ++ tikzify o.name ++ ") at (" ++
                 fmt4 o.matrix_world.tx ++ "," ++ fmt4 o.matrix_world.ty ++ ");\n")
    else Except.ok ""

/-- Whether the spline loop produced a nonempty path expression (the
material registration only happens past the `if not ps: return s` guard). -/
def objPsNonempty (o : PyObject) (opt : Options) : Bool :=
  match objPs o opt with
  | Except.ok ps => ps ≠ ""
  | Except.error _ => false

/-- The `used_materials` side effect of `write_object`: with materials
exported and a first non-null material present, `get_material` registers it. -/
def objRegister (tbl : MatTable) (o : PyObject) (opt : Options) : MatTable :=
  if o.type = "CURVE" ∧ opt.EXPORT_MATERIALS ∧ objPsNonempty o opt then
    match firstMat (exceptD o.data_materials []) with
    | some m => (get_material tbl (some m)).2
    | none => tbl
  else tbl

/-- `write_object` proper: output text plus the updated material table. -/
def writeObject (tbl : MatTable) (o : PyObject) (emptD : List (String × List PyObject))
    (opt : Options) : Except String (String × MatTable) := do
  let s ← writeObjectStr o emptD opt
  pure (s, objRegister tbl o opt)

/-- The object loop of `write_tex`: concatenates outputs and threads the
material table. -/
def foldObjects (emptD : List (String × List PyObject)) (opt : Options) :
    MatTable → List PyObject → Except String (String × MatTable)
  | tbl, [] => Except.ok ("", tbl)
  | tbl, o :: rest => do
    let p ← writeObject tbl o emptD opt
    let q ← foldObjects emptD opt p.2 rest
    pure (p.1 ++ q.1, q.2)

/-! ### Selector / sorter -/

/-- The depth coordinate `z_comp` compares: `obj.matrix_world.translation`'s z. -/
def zOf (o : PyObject) : ℚ := o.matrix_world.tz

/-- Insert into an already-sorted list, before the first element of equal
or larger depth (this makes the sort stable, like Python's `sorted`). -/
def zInsert (a : PyObject) : List PyObject → List PyObject
  | [] => [a]
  | b :: l => if zOf a ≤ zOf b then a :: b :: l else b :: zInsert a l

/-- Model of `sorted(objects, key=cmp_to_key(z_comp))`: the unique stable
sort by ascending depth. -/
def zSort : List PyObject → List PyObject
  | [] => []
  | a :: l => zInsert a (zSort l)

/-- `empties_dict` construction: children appended under their parent's key. -/
def dictAppend (k : String) (e : PyObject) :
    List (String × List PyObject) → List (String × List PyObject)
  | [] => [(k, [e])]
  | (k', l) :: rest =>
    if k' = k then (k', l ++ [e]) :: rest else (k', l) :: dictAppend k e rest

def buildEmpD (l : List PyObject) : List (String × List PyObject) :=
  l.foldl (fun d e =>
    match e.parentName with
    | some pn => dictAppend pn e d
    | none => d) []

/-- Selected empties with a parent, then the parent→children dictionary. -/
def empDictOf (objs : List PyObject) : List (String × List PyObject) :=
  buildEmpD (objs.filter (fun o => o.type == "Empty" && o.parentName.isSome))

/-! ### Document assembly and the export entry point -/

def standaloneTemplate (preamble materials pathcode : String) : String :=
  "\n\\documentclass\x7barticle\x7d\n\\usepackage\x7btikz\x7d\n" ++ preamble ++ "\n" ++
  materials ++ "\n\\begin\x7bdocument\x7d\n\\begin\x7btikzpicture\x7d\n" ++ pathcode ++
  "\n\\end\x7btikzpicture\x7d\n\\end\x7bdocument\x7d\n"

def figTemplate (materials pathcode : String) : String :=
  "\n" ++ materials ++ "\n\\begin\x7btikzpicture\x7d\n" ++ pathcode ++
  "\n\\end\x7btikzpicture\x7d\n"

/-- Template selection: the source tests `STANDALONE` first, then
`CODE_ONLY`, else the figure template. -/
def assembleDoc (opt : Options) (preamble materials pathcode : String) : String :=
  if opt.STANDALONE then standaloneTemplate preamble materials pathcode
  else if opt.CODE_ONLY then pathcode
  else figTemplate materials pathcode

/-- `'%% Generated by tikz_export.py v %s \n' % str(bl_info["version"])`. -/
def fileHeader : String := "% Generated by tikz_export.py v (2, 0) \n"

/-- Outcome of one `write_tex` call: terminal status string, what reached
the file and clipboard sinks, and the final `used_materials` global. -/
structure ExportResult where
  status : String
  fileWritten : Option String
  clipboardWritten : Option String
  finalMaterials : MatTable

/-- The material block of the document: `write_materials` when materials
are exported, the empty string otherwise. -/
def matCodeOf (tbl : MatTable) (opt : Options) : Except String String :=
  if opt.EXPORT_MATERIALS then writeMaterials tbl opt.ONLY_PROPERTIES else pure ""

/-- `write_tex`: the export entry point.  `g` is the module-global
`used_materials` at call time (never reset by the call itself); `fileOk`
and `clipOk` model the fallible sinks.  A `Except.error e` result is a
Python exception `e` escaping the entry point. -/
def writeTex (g : MatTable) (selected : List PyObject) (scnProps : List (String × String))
    (opt : Options) (fileOk clipOk : Bool) : Except String ExportResult :=
  if selected.length = 0 then
    Except.ok ⟨"ERROR: Please select at least one curve", none, none, g⟩
  else do
    let p ← foldObjects (empDictOf selected) opt g (zSort selected)
    let matcode ← matCodeOf p.2 opt
    let preamblecode := ((scnProps.lookup "preamble").getD "")
    let doc := assembleDoc opt preamblecode matcode p.1
    if ¬ opt.CLIPBOARD_OUTPUT then
      if fileOk then Except.ok ⟨"File sucesfully writen", some (fileHeader ++ doc), none, p.2⟩
      else Except.ok ⟨"Failed to write file", none, none, p.2⟩
    else
      if clipOk then Except.ok ⟨"tikz_export ended ...", none, some doc, p.2⟩
      else Except.ok ⟨"Failed  to write to clipboard", none, none, p.2⟩

/-! ### Lemmas about substring search -/

theorem strStarts_append (pat t : List Char) : strStarts pat (pat ++ t) = true := by
  induction pat with
  | nil => rfl
  | cons p ps ih => simp [strStarts, ih]

theorem exists_of_strStarts {pat s : List Char} (h : strStarts pat s = true) :
    ∃ t, s = pat ++ t := by
  induction pat generalizing s with
  | nil => exact ⟨s, rfl⟩
  | cons p ps ih =>
    cases s with
    | nil => simp [strStarts] at h
    | cons c cs =>
      simp only [strStarts, Bool.and_eq_true, beq_iff_eq] at h
      obtain ⟨t, ht⟩ := ih h.2
      exact ⟨t, by simp [h.1, ht]⟩

theorem containsL_self (pat : List Char) : containsL pat pat :=
  ⟨[], [], by simp⟩

theorem containsL_append_left {pat s : List Char} (t : List Char) (h : containsL pat s) :
    containsL pat (t ++ s) := by
  obtain ⟨a, b, rfl⟩ := h
  exact ⟨t ++ a, b, by simp⟩

theorem containsL_append_right {pat s : List Char} (t : List Char) (h : containsL pat s) :
    containsL pat (s ++ t) := by
  obtain ⟨a, b, rfl⟩ := h
  exact ⟨a, b ++ t, by simp⟩

theorem mem_of_containsL {pat s : List Char} {c : Char} (h : containsL pat s) (hc : c ∈ pat) :
    c ∈ s := by
  obtain ⟨a, b, rfl⟩ := h
  simp [hc]

theorem pyFind_append_self (pat b : List Char) : pyFind pat (pat ++ b) = 0 := by
  cases pat with
  | nil =>
    cases b with
    | nil => simp [pyFind]
    | cons c cs => simp [pyFind, strStarts]
  | cons p ps =>
    have h : strStarts (p :: ps) ((p :: ps) ++ b) = true := strStarts_append _ _
    simp only [List.cons_append] at h
    simp [pyFind, h]

theorem pyFind_nonneg_of_contains {pat s : List Char} (h : containsL pat s) :
    0 ≤ pyFind pat s := by
  obtain ⟨a, b, rfl⟩ := h
  induction a with
  | nil => simp [pyFind_append_self]
  | cons c cs ih =>
    simp only [List.cons_append]
    rw [pyFind]
    split
    · norm_num
    · have h2 : ¬ pyFind pat (cs ++ (pat ++ b)) < 0 := by
        simpa using not_lt.mpr (by simpa using ih)
      simp only [h2, if_false]
      have := not_lt.mp h2
      omega

theorem pyFind_pos {pat s : List Char} (h : containsL pat s) (hs : strStarts pat s = false) :
    0 < pyFind pat s := by
  cases s with
  | nil =>
    obtain ⟨a, b, hab⟩ := h
    have h0 : a = [] ∧ pat = [] ∧ b = [] := by
      have h1 : a ++ pat ++ b = [] := hab.symm
      simpa [List.append_eq_nil] using h1
    obtain ⟨-, rfl, -⟩ := h0
    simp [strStarts] at hs
  | cons c cs =>
    rw [pyFind]
    rw [if_neg (by simp [hs])]
    have hcs : containsL pat cs := by
      obtain ⟨a, b, hab⟩ := h
      cases a with
      | nil =>
        exfalso
        simp only [List.nil_append] at hab
        rw [hab, strStarts_append] at hs
        exact Bool.true_eq_false.mp hs
      | cons a0 as =>
        simp only [List.cons_append, List.cons.injEq] at hab
        exact ⟨as, b, hab.2⟩
    have h2 : ¬ pyFind pat cs < 0 := not_lt.mpr (pyFind_nonneg_of_contains hcs)
    simp only [h2, if_false]
    have := not_lt.mp h2
    omega

theorem pyFind_eq_neg_one {pat s : List Char} (h : ¬ containsL pat s) : pyFind pat s = -1 := by
  induction s with
  | nil =>
    have hp : pat ≠ [] := by rintro rfl; exact h ⟨[], [], rfl⟩
    simp [pyFind, hp]
  | cons c cs ih =>
    rw [pyFind]
    have h1 : strStarts pat (c :: cs) = false := by
      rcases hb : strStarts pat (c :: cs) with _ | _
      · rfl
      · obtain ⟨t, ht⟩ := exists_of_strStarts hb
        exact absurd ⟨[], t, by simp [ht]⟩ h
    rw [if_neg (by simp [h1])]
    have h2 : ¬ containsL pat cs := by
      rintro ⟨a, b, rfl⟩
      exact h ⟨c :: a, b, by simp⟩
    simp [ih h2]

/-! ### Lemmas about formatting -/

def decDigits : List Char := ['0', '1', '2', '3', '4', '5', '6', '7', '8', '9']

theorem digitChar_mem : ∀ n : Nat, digitChar n ∈ decDigits
  | 0 => by decide
  | 1 => by decide
  | 2 => by decide
  | 3 => by decide
  | 4 => by decide
  | 5 => by decide
  | 6 => by decide
  | 7 => by decide
  | 8 => by decide
  | n + 9 => by show '9' ∈ decDigits; decide

theorem mem_natDecGo (f : Nat) : ∀ n : Nat, ∀ c ∈ natDecGo f n, c ∈ decDigits := by
  induction f with
  | zero => intro n c hc; simp [natDecGo] at hc
  | succ f ih =>
    intro n c hc
    rw [natDecGo] at hc
    split at hc
    · simp only [List.mem_singleton] at hc
      subst hc
      exact digitChar_mem _
    · rcases List.mem_append.mp hc with hl | hr
      · exact ih (n / 10) c hl
      · simp only [List.mem_singleton] at hr
        subst hr
        exact digitChar_mem _

theorem mem_natDecAux (n : Nat) : ∀ c ∈ natDecAux n, c ∈ decDigits :=
  mem_natDecGo (n + 1) n

theorem fmt4_chars {q : ℚ} {c : Char} (h : c ∈ (fmt4 q).data) :
    c = '-' ∨ c = '.' ∨ c ∈ decDigits := by
  unfold fmt4 at h
  simp only [String.data_append] at h
  rcases List.mem_append.mp h with h1 | h4
  · rcases List.mem_append.mp h1 with h2 | h3
    · rcases List.mem_append.mp h2 with h5 | h6
      · split at h5
        · left; simpa using h5
        · simp at h5
      · right; right; exact mem_natDecAux _ c h6
    · right; left; simpa using h3
  · right; right
    simp only [natDigits4, List.mem_cons, List.not_mem_nil, or_false] at h4
    rcases h4 with rfl | rfl | rfl | rfl
    all_goals exact digitChar_mem _

theorem fmt4_no_plus (q : ℚ) : '+' ∉ (fmt4 q).data := by
  intro h
  rcases fmt4_chars h with h | h | h
  · exact absurd h (by decide)
  · exact absurd h (by decide)
  · exact absurd h (by decide)

theorem round4_eq (q : ℚ) : round4 q = ⌊q * 10000 + 1 / 2⌋ := by
  have hden : ((q.den : ℚ)) ≠ 0 := by
    exact_mod_cast Nat.pos_iff_ne_zero.mp q.den_pos
  have key : (q * 10000 + 1 / 2 : ℚ) =
      ((20000 * q.num + (q.den : ℤ) : ℤ) : ℚ) / ((2 * q.den : ℕ) : ℚ) := by
    conv_lhs => rw [← Rat.num_div_den q]
    push_cast
    field_simp
    ring
  rw [key, Rat.floor_intCast_div_natCast, round4]
  push_cast
  rfl

theorem fmt4_neg {q : ℚ} (h : q ≤ -(1 / 10000)) : ∃ t, (fmt4 q).data = '-' :: t := by
  have hm : q * 10000 ≤ -1 := by nlinarith
  have hr : round4 q < 0 := by
    rw [round4_eq, Int.floor_lt]
    push_cast
    linarith
  refine ⟨(natToDec ((round4 q).natAbs / 10000)).data ++
          '.' :: natDigits4 ((round4 q).natAbs % 10000), ?_⟩
  unfold fmt4
  simp [hr, String.data_append]

theorem fmt4_frac (q : ℚ) :
    ∃ pre d1 d2 d3 d4, (fmt4 q).data = pre ++ ['.', d1, d2, d3, d4] ∧
      d1 ∈ decDigits ∧ d2 ∈ decDigits ∧ d3 ∈ decDigits ∧ d4 ∈ decDigits := by
  refine ⟨((if round4 q < 0 then "-" else "") ++
           natToDec ((round4 q).natAbs / 10000)).data,
          digitChar ((round4 q).natAbs % 10000 / 1000 % 10),
          digitChar ((round4 q).natAbs % 10000 / 100 % 10),
          digitChar ((round4 q).natAbs % 10000 / 10 % 10),
          digitChar ((round4 q).natAbs % 10000 % 10), ?_,
          digitChar_mem _, digitChar_mem _, digitChar_mem _, digitChar_mem _⟩
  unfold fmt4
  simp [String.data_append, natDigits4]

/-! ### Lemmas about the material table -/

theorem exceptBind_ok {α β : Type} (a : α) (f : α → Except String β) :
    (Except.ok a >>= f) = f a := rfl

def keysOf (tbl : MatTable) : List String := tbl.map Prod.fst

theorem keysOf_insert (k : String) (v : PyMaterial) (tbl : MatTable) :
    keysOf (pyDictInsert k v tbl) =
      if k ∈ keysOf tbl then keysOf tbl else keysOf tbl ++ [k] := by
  induction tbl with
  | nil => simp [pyDictInsert, keysOf]
  | cons e rest ih =>
    obtain ⟨k', v'⟩ := e
    by_cases hk : k' = k
    · subst hk
      simp [pyDictInsert, keysOf]
    · rw [pyDictInsert, if_neg hk]
      simp only [keysOf, List.map_cons, List.mem_cons] at ih ⊢
      rw [ih]
      have hne : ¬ (k = k') := fun h => hk h.symm
      by_cases hm : k ∈ List.map Prod.fst rest
      · simp [hm, hne]
      · simp [hm, hne]

/-- The sequence of `get_material` registrations performed by a run. -/
def registerList (tbl : MatTable) (regs : List PyMaterial) : MatTable :=
  regs.foldl (fun t m => (get_material t (some m)).2) tbl

/-- First-seen deduplication of a key sequence, starting from `ks`. -/
def dedupKeys (ks : List String) (l : List String) : List String :=
  l.foldl (fun acc k => if k ∈ acc then acc else acc ++ [k]) ks

theorem keysOf_registerList (regs : List PyMaterial) :
    ∀ tbl : MatTable, keysOf (registerList tbl regs) =
      dedupKeys (keysOf tbl) (regs.map (fun m => tikzify m.name)) := by
  induction regs with
  | nil => intro tbl; rfl
  | cons m rest ih =>
    intro tbl
    have hstep : (get_material tbl (some m)).2 = pyDictInsert (tikzify m.name) m tbl := rfl
    have h1 : registerList tbl (m :: rest) =
        registerList (pyDictInsert (tikzify m.name) m tbl) rest := by
      simp [registerList, hstep]
    rw [h1, ih, keysOf_insert]
    have h2 : dedupKeys (keysOf tbl) ((m :: rest).map (fun m => tikzify m.name)) =
        dedupKeys (if tikzify m.name ∈ keysOf tbl then keysOf tbl
                   else keysOf tbl ++ [tikzify m.name])
          (rest.map (fun m => tikzify m.name)) := by
      simp [dedupKeys]
    rw [h2]

theorem dedupKeys_nodup (l : List String) :
    ∀ ks : List String, ks.Nodup → (dedupKeys ks l).Nodup := by
  induction l with
  | nil => intro ks h; exact h
  | cons k rest ih =>
    intro ks h
    by_cases hm : k ∈ ks
    · have : dedupKeys ks (k :: rest) = dedupKeys ks rest := by simp [dedupKeys, hm]
      rw [this]
      exact ih ks h
    · have : dedupKeys ks (k :: rest) = dedupKeys (ks ++ [k]) rest := by simp [dedupKeys, hm]
      rw [this]
      refine ih _ ?_
      rw [List.nodup_append]
      refine ⟨h, List.nodup_singleton _, ?_⟩
      intro a ha hak
      simp only [List.mem_singleton] at hak
      subst hak
      exact hm ha

theorem mem_dedupKeys (l : List String) :
    ∀ ks : List String, ∀ k ∈ ks, k ∈ dedupKeys ks l := by
  induction l with
  | nil => intro ks k h; exact h
  | cons k' rest ih =>
    intro ks k h
    by_cases hm : k' ∈ ks
    · have : dedupKeys ks (k' :: rest) = dedupKeys ks rest := by simp [dedupKeys, hm]
      rw [this]
      exact ih ks k h
    · have : dedupKeys ks (k' :: rest) = dedupKeys (ks ++ [k']) rest := by simp [dedupKeys, hm]
      rw [this]
      exact ih _ k (List.mem_append_left _ h)

theorem keysOf_subset_objRegister (tbl : MatTable) (o : PyObject) (opt : Options) :
    ∀ k ∈ keysOf tbl, k ∈ keysOf (objRegister tbl o opt) := by
  intro k hk
  unfold objRegister
  split
  · split
    · rename_i m hm
      show k ∈ keysOf (pyDictInsert (tikzify m.name) m tbl)
      rw [keysOf_insert]
      split
      · exact hk
      · exact List.mem_append_left _ hk
    · exact hk
  · exact hk

/-- The accumulated registration effect of the object loop. -/
def regFold (opt : Options) (tbl : MatTable) (l : List PyObject) : MatTable :=
  l.foldl (fun t o => objRegister t o opt) tbl

theorem keysOf_subset_regFold (opt : Options) (l : List PyObject) :
    ∀ tbl : MatTable, ∀ k ∈ keysOf tbl, k ∈ keysOf (regFold opt tbl l) := by
  induction l with
  | nil => intro tbl k hk; exact hk
  | cons o rest ih =>
    intro tbl k hk
    exact ih (objRegister tbl o opt) k (keysOf_subset_objRegister tbl o opt k hk)

/-- The value part of a successful `Except` computation. -/
def okStr : Except String String → String
  | Except.ok s => s
  | Except.error _ => ""

theorem writeMaterialsAux_join (d : Bool) (ms : List PyMaterial)
    (h : ∀ m ∈ ms, ∃ s, matChunk d m = Except.ok s) :
    writeMaterialsAux d ms =
      Except.ok (strConcat (ms.map (fun m => okStr (matChunk d m)))) := by
  induction ms with
  | nil => rfl
  | cons m rest ih =>
    obtain ⟨s, hs⟩ := h m (List.mem_cons_self m rest)
    have hr := ih (fun x hx => h x (List.mem_cons_of_mem m hx))
    rw [writeMaterialsAux, hs, exceptBind_ok, hr, exceptBind_ok]
    simp only [strConcat, okStr, hs, List.map_cons]
    rfl

theorem writeMaterials_join (d : Bool) (tbl : MatTable)
    (h : ∀ m ∈ tbl.map Prod.snd, ∃ s, matChunk d m = Except.ok s) :
    writeMaterials tbl d =
      Except.ok ("% Materials section \n" ++
        strConcat ((tbl.map Prod.snd).map (fun m => okStr (matChunk d m)))) := by
  rw [writeMaterials, writeMaterialsAux_join d _ h, exceptBind_ok]
  rfl

/-! ### Lemmas about the depth sort -/

/-- The ordering `z_comp` induces. -/
def zle (a b : PyObject) : Prop := zOf a ≤ zOf b

theorem zInsert_perm (a : PyObject) (l : List PyObject) : (zInsert a l).Perm (a :: l) := by
  induction l with
  | nil => exact List.Perm.refl _
  | cons b t ih =>
    rw [zInsert]
    split
    · exact List.Perm.refl _
    · exact (List.Perm.cons b ih).trans (List.Perm.swap a b t)

theorem zSort_perm (l : List PyObject) : (zSort l).Perm l := by
  induction l with
  | nil => exact List.Perm.refl _
  | cons a t ih =>
    rw [zSort]
    exact (zInsert_perm a (zSort t)).trans (List.Perm.cons a ih)

theorem zInsert_pairwise {a : PyObject} {l : List PyObject} (h : List.Pairwise zle l) :
    List.Pairwise zle (zInsert a l) := by
  induction l with
  | nil => simp [zInsert, List.Pairwise]
  | cons b t ih =>
    rw [List.pairwise_cons] at h
    obtain ⟨hb, ht⟩ := h
    rw [zInsert]
    split
    · rename_i hab
      rw [List.pairwise_cons]
      refine ⟨?_, List.pairwise_cons.mpr ⟨hb, ht⟩⟩
      intro x hx
      rcases List.mem_cons.mp hx with rfl | hx
      · exact hab
      · exact le_trans hab (hb x hx)
    · rename_i hab
      have hba : zOf b ≤ zOf a := le_of_lt (lt_of_not_le hab)
      rw [List.pairwise_cons]
      refine ⟨?_, ih ht⟩
      intro x hx
      rcases List.mem_cons.mp ((zInsert_perm a t).mem_iff.mp hx) with rfl | hmem
      · exact hba
      · exact hb x hmem

theorem zSort_pairwise (l : List PyObject) : List.Pairwise zle (zSort l) := by
  induction l with
  | nil => exact List.Pairwise.nil
  | cons a t ih => exact zInsert_pairwise ih

theorem zInsert_filter (a : PyObject) (l : List PyObject) (c : ℚ) :
    (zInsert a l).filter (fun o => decide (zOf o = c)) =
      if zOf a = c then a :: l.filter (fun o => decide (zOf o = c))
      else l.filter (fun o => decide (zOf o = c)) := by
  induction l with
  | nil => by_cases h : zOf a = c <;> simp [zInsert, h]
  | cons b t ih =>
    rw [zInsert]
    split
    · by_cases h : zOf a = c <;> simp [List.filter_cons, h]
    · rename_i hab
      have hba : zOf b < zOf a := lt_of_not_le hab
      by_cases h : zOf a = c
      · have hbc : ¬ (zOf b = c) := by
          rw [← h]
          exact ne_of_lt hba
        simp [List.filter_cons, hbc, ih, h]
      · by_cases hbc : zOf b = c
        · simp [List.filter_cons, hbc, ih, h]
        · simp [List.filter_cons, hbc, ih, h]

theorem zSort_filter (l : List PyObject) (c : ℚ) :
    (zSort l).filter (fun o => decide (zOf o = c)) =
      l.filter (fun o => decide (zOf o = c)) := by
  induction l with
  | nil => rfl
  | cons a t ih =>
    rw [zSort, zInsert_filter]
    by_cases h : zOf a = c <;> simp [List.filter_cons, h, ih]

/-! ### Lemmas about the object loop -/

theorem foldObjects_join (emptD : List (String × List PyObject)) (opt : Options)
    (l : List PyObject)
    (h : ∀ o ∈ l, ∃ s, writeObjectStr o emptD opt = Except.ok s) :
    ∀ tbl : MatTable, foldObjects emptD opt tbl l =
      Except.ok (strConcat (l.map (fun o => okStr (writeObjectStr o emptD opt))),
                 regFold opt tbl l) := by
  induction l with
  | nil => intro tbl; rfl
  | cons o rest ih =>
    intro tbl
    obtain ⟨s, hs⟩ := h o (List.mem_cons_self o rest)
    have hw : writeObject tbl o emptD opt = Except.ok (s, objRegister tbl o opt) := by
      rw [writeObject, hs, exceptBind_ok]
      rfl
    have hr := ih (fun x hx => h x (List.mem_cons_of_mem o hx)) (objRegister tbl o opt)
    rw [foldObjects, hw, exceptBind_ok, hr, exceptBind_ok]
    simp only [strConcat, okStr, hs, regFold, List.map_cons]
    rfl

/-! ### Lemmas about the spline serializer -/

/-- Invariant on the accumulated path expression with plot-paths disabled:
empty, or starting with an opening parenthesis. -/
def accShape (s : String) : Prop := s = "" ∨ ∃ t, s.data = '(' :: t

theorem accShape_extend {acc acc' : String} {t : List Char}
    (ha : accShape acc) (hd : acc'.data = acc.data ++ '(' :: t) :
    accShape acc' ∧ ∀ pat, containsL pat acc.data → containsL pat acc'.data := by
  constructor
  · rcases ha with rfl | ⟨u, hu⟩
    · right
      exact ⟨t, by simpa using hd⟩
    · right
      refine ⟨u ++ '(' :: t, ?_⟩
      rw [hd, hu]
      simp
  · intro pat hc
    rw [hd]
    exact containsL_append_right _ hc

theorem containsL_cycle_marker : containsL "cycle".data "  -- cycle\n".data :=
  ⟨"  -- ".data, "\n".data, by decide⟩

theorem pyIndex_cons {α : Type} (x : α) (l : List α) : pyIndex (x :: l) 0 = Except.ok x := by
  simp [pyIndex]

theorem bezPair_data (p : Pt) :
    (bezPair p).data =
      '(' :: '+' :: ((fmt4 p.x).data ++ ',' :: '+' :: ((fmt4 p.y).data ++ [')'])) := by
  simp [bezPair, String.data_append]

theorem polyPair_data (p : Pt) :
    (polyPair p).data =
      '(' :: '+' :: ((decRepr p.x).data ++ '.' :: '4' :: 'f' :: ',' :: '+' ::
        ((decRepr p.y).data ++ ['.', '4', 'f', ')'])) := by
  simp [polyPair, String.data_append]

theorem extend_with {acc X : String} (acc' : String) (tail : List Char) {u : List Char}
    (ha : accShape acc) (hX : X.data = '(' :: u)
    (hd : acc'.data = acc.data ++ (X.data ++ tail)) :
    accShape acc' ∧ ∀ pat, containsL pat acc.data → containsL pat acc'.data := by
  refine accShape_extend (t := u ++ tail) ha ?_
  rw [hd, hX]
  simp

theorem splineStep_props (o : PyObject) (opt : Options) (acc : String) (sp : Spline)
    (hU : opt.USE_PLOTPATH = false)
    (hb : sp.type = "BEZIER" → sp.bezier_points ≠ [])
    (hp : sp.type = "POLY" → sp.SplinePoint ≠ [])
    (ha : accShape acc) :
    ∃ acc', splineStep o opt acc sp = Except.ok acc' ∧ accShape acc' ∧
      (∀ pat, containsL pat acc.data → containsL pat acc'.data) ∧
      (sp.type = "BEZIER" → sp.use_cyclic_u = true →
        containsL "cycle".data acc'.data) := by
  by_cases hbt : sp.type = "BEZIER"
  · obtain ⟨p0, rest, hps⟩ : ∃ p0 rest, sp.bezier_points = p0 :: rest := by
      cases h : sp.bezier_points with
      | nil => exact absurd h (hb hbt)
      | cons a l => exact ⟨a, l, rfl⟩
    have hraw : bezRawHandles sp = p0.handle_left :: p0.handle_right ::
        rest.flatMap (fun p => [p.handle_left, p.handle_right]) := by
      simp [bezRawHandles, hps]
    have hH : ∃ hl, bezHandles2 sp = Except.ok hl := by
      cases hcyc : sp.use_cyclic_u
      · refine ⟨((bezRawHandles sp).drop 1).dropLast, ?_⟩
        rw [bezHandles2, if_neg (by simp [hcyc])]
        rfl
      · refine ⟨(p0.handle_left :: p0.handle_right ::
          rest.flatMap (fun p => [p.handle_left, p.handle_right])).drop 1 ++
          [p0.handle_left], ?_⟩
        rw [bezHandles2, if_pos hcyc, hraw, pyIndex_cons, exceptBind_ok]
        rfl
    obtain ⟨hl, hH⟩ := hH
    have hknots : bezKnots sp = bezPair p0.co :: rest.map (fun p => bezPair p.co) := by
      simp [bezKnots, hps]
    have hK : ∃ kl, bezKnots2 sp = Except.ok (bezPair p0.co :: kl) := by
      cases hcyc : sp.use_cyclic_u
      · refine ⟨rest.map (fun p => bezPair p.co), ?_⟩
        rw [bezKnots2, hknots, if_neg (by simp [hcyc])]
        rfl
      · refine ⟨rest.map (fun p => bezPair p.co) ++ [bezPair p0.co], ?_⟩
        rw [bezKnots2, hknots, if_pos hcyc, pyIndex_cons, exceptBind_ok]
        rfl
    obtain ⟨kl, hK⟩ := hK
    rw [splineStep, if_pos hbt, hH, exceptBind_ok, hK, exceptBind_ok]
    have hk0 : pyIndex (bezPair p0.co :: kl) 0 = Except.ok (bezPair p0.co) := by
      simp [pyIndex]
    rw [hk0, exceptBind_ok]
    refine ⟨_, rfl, ?_⟩
    have hext := extend_with (acc ++ bezPair p0.co ++ "\n" ++
        strConcat ((((nsplit2 hl).map (fun hp => ctrlStr hp.1 hp.2)).zip
          ((bezPair p0.co :: kl).drop 1)).map
          (fun hk => "  .. " ++ hk.1 ++ " .. " ++ hk.2 ++ "\n")) ++
        (if sp.use_cyclic_u then "  -- cycle\n" else ""))
      ("\n".data ++
        (strConcat ((((nsplit2 hl).map (fun hp => ctrlStr hp.1 hp.2)).zip
          ((bezPair p0.co :: kl).drop 1)).map
          (fun hk => "  .. " ++ hk.1 ++ " .. " ++ hk.2 ++ "\n"))).data ++
        (if sp.use_cyclic_u then "  -- cycle\n" else "").data)
      ha (bezPair_data p0.co) (by simp [String.data_append])
    refine ⟨hext.1, hext.2, ?_⟩
    intro _ hcyc
    have hsplit : (acc ++ bezPair p0.co ++ "\n" ++
        strConcat ((((nsplit2 hl).map (fun hp => ctrlStr hp.1 hp.2)).zip
          ((bezPair p0.co :: kl).drop 1)).map
          (fun hk => "  .. " ++ hk.1 ++ " .. " ++ hk.2 ++ "\n")) ++
        (if sp.use_cyclic_u then "  -- cycle\n" else "")).data =
        (acc ++ bezPair p0.co ++ "\n" ++
        strConcat ((((nsplit2 hl).map (fun hp => ctrlStr hp.1 hp.2)).zip
          ((bezPair p0.co :: kl).drop 1)).map
          (fun hk => "  .. " ++ hk.1 ++ " .. " ++ hk.2 ++ "\n"))).data ++
        (if sp.use_cyclic_u then "  -- cycle\n" else "").data :=
      String.data_append _ _
    rw [hsplit, hcyc]
    simp only [if_true]
    exact containsL_append_left _ containsL_cycle_marker
  · by_cases hpt : sp.type = "POLY"
    · obtain ⟨p0, rest, hps⟩ : ∃ p0 rest, sp.SplinePoint = p0 :: rest := by
        cases h : sp.SplinePoint with
        | nil => exact absurd h (hp hpt)
        | cons a l => exact ⟨a, l, rfl⟩
      have hcoords : sp.SplinePoint.map polyPair = polyPair p0 :: rest.map polyPair := by
        simp [hps]
      rw [splineStep, if_neg hbt, if_pos hpt, hU]
      simp only [Bool.false_eq_true, if_false]
      cases hcyc : sp.use_cyclic_u
      · simp only [Bool.false_eq_true, if_false]
        rw [hcoords, pure_bind]
        cases hw : opt.WRAP_LINES
        · simp only [Bool.false_eq_true, if_false]
          refine ⟨_, rfl, ?_⟩
          have hext := extend_with
            (acc ++ pyJoin " -- " (polyPair p0 :: rest.map polyPair))
            ((strConcat ((rest.map polyPair).map (fun x => " -- " ++ x))).data)
            ha (polyPair_data p0) (by simp [String.data_append, pyJoin])
          exact ⟨hext.1, hext.2, fun h => absurd h hbt⟩
        · simp only [if_true]
          rw [pyIndex_cons, exceptBind_ok]
          refine ⟨_, rfl, ?_⟩
          have hext := extend_with
            (acc ++ polyPair p0 ++ "\n  " ++
              wrapJoin3 1 ((polyPair p0 :: rest.map polyPair).drop 1))
            ("\n  ".data ++
              (wrapJoin3 1 ((polyPair p0 :: rest.map polyPair).drop 1)).data)
            ha (polyPair_data p0) (by simp [String.data_append])
          exact ⟨hext.1, hext.2, fun h => absurd h hbt⟩
      · simp only [if_true]
        rw [hcoords, pyIndex_cons, exceptBind_ok, List.cons_append, pure_bind]
        cases hw : opt.WRAP_LINES
        · simp only [Bool.false_eq_true, if_false]
          refine ⟨_, rfl, ?_⟩
          have hext := extend_with
            (acc ++ pyJoin " -- " (polyPair p0 ::
              (rest.map polyPair ++ [polyPair p0, "cycle\n  "])))
            ((strConcat ((rest.map polyPair ++ [polyPair p0, "cycle\n  "]).map
              (fun x => " -- " ++ x))).data)
            ha (polyPair_data p0) (by simp [String.data_append, pyJoin])
          exact ⟨hext.1, hext.2, fun h => absurd h hbt⟩
        · simp only [if_true]
          rw [pyIndex_cons, exceptBind_ok]
          refine ⟨_, rfl, ?_⟩
          have hext := extend_with
            (acc ++ polyPair p0 ++ "\n  " ++
              wrapJoin3 1 ((polyPair p0 ::
                (rest.map polyPair ++ [polyPair p0, "cycle\n  "])).drop 1))
            ("\n  ".data ++
              (wrapJoin3 1 ((polyPair p0 ::
                (rest.map polyPair ++ [polyPair p0, "cycle\n  "])).drop 1)).data)
            ha (polyPair_data p0) (by simp [String.data_append])
          exact ⟨hext.1, hext.2, fun h => absurd h hbt⟩
    · rw [splineStep, if_neg hbt, if_neg hpt]
      exact ⟨acc, rfl, ha, fun _ h => h, fun h => absurd h hbt⟩

theorem foldSplines_props (o : PyObject) (opt : Options) (hU : opt.USE_PLOTPATH = false)
    (l : List Spline)
    (hb : ∀ sp ∈ l, sp.type = "BEZIER" → sp.bezier_points ≠ [])
    (hp : ∀ sp ∈ l, sp.type = "POLY" → sp.SplinePoint ≠ []) :
    ∀ acc, accShape acc →
    ∃ ps, List.foldlM (splineStep o opt) acc l = Except.ok ps ∧ accShape ps ∧
      (∀ pat, containsL pat acc.data → containsL pat ps.data) ∧
      (∀ sp ∈ l, sp.type = "BEZIER" → sp.use_cyclic_u = true →
        containsL "cycle".data ps.data) := by
  induction l with
  | nil =>
    intro acc ha
    exact ⟨acc, rfl, ha, fun _ h => h, by simp⟩
  | cons sp rest ih =>
    intro acc ha
    obtain ⟨acc', hstep, ha', hpres, hcyc⟩ := splineStep_props o opt acc sp hU
      (hb sp (List.mem_cons_self _ _)) (hp sp (List.mem_cons_self _ _)) ha
    obtain ⟨ps, hfold, hps, hpres', hcyc'⟩ :=
      ih (fun s hs => hb s (List.mem_cons_of_mem _ hs))
        (fun s hs => hp s (List.mem_cons_of_mem _ hs)) acc' ha'
    refine ⟨ps, ?_, hps, fun pat h => hpres' pat (hpres pat h), ?_⟩
    · rw [List.foldlM_cons, hstep, exceptBind_ok, hfold]
    · intro s hs hsb hsc
      rcases List.mem_cons.mp hs with rfl | hmem
      · exact hpres' _ (hcyc hsb hsc)
      · exact hcyc' s hmem hsb hsc

theorem objPs_props (o : PyObject) (opt : Options) (hU : opt.USE_PLOTPATH = false)
    (hb : ∀ sp ∈ o.splines, sp.type = "BEZIER" → sp.bezier_points ≠ [])
    (hp : ∀ sp ∈ o.splines, sp.type = "POLY" → sp.SplinePoint ≠ [])
    (hcyc : ∃ sp ∈ o.splines, sp.type = "BEZIER" ∧ sp.use_cyclic_u = true) :
    ∃ ps t, objPs o opt = Except.ok ps ∧ ps.data = '(' :: t ∧
      containsL "cycle".data ps.data := by
  obtain ⟨ps, hfold, hshape, -, hcy⟩ :=
    foldSplines_props o opt hU o.splines hb hp "" (Or.inl rfl)
  obtain ⟨sp, hs, hsb, hsc⟩ := hcyc
  have hcontains := hcy sp hs hsb hsc
  have hne : ps ≠ "" := by
    rintro rfl
    have : 'c' ∈ ("" : String).data := mem_of_containsL hcontains (by decide)
    simp at this
  rcases hshape with rfl | ⟨t, ht⟩
  · exact absurd rfl hne
  · exact ⟨ps, t, hfold, ht, hcontains⟩

theorem foldSplines_unsupported (o : PyObject) (opt : Options) (l : List Spline)
    (h : ∀ sp ∈ l, sp.type ≠ "BEZIER" ∧ sp.type ≠ "POLY") :
    ∀ acc : String, List.foldlM (splineStep o opt) acc l = Except.ok acc := by
  induction l with
  | nil => intro acc; rfl
  | cons sp rest ih =>
    intro acc
    have hsp := h sp (List.mem_cons_self _ _)
    rw [List.foldlM_cons, splineStep, if_neg hsp.1, if_neg hsp.2, pure_bind]
    exact ih (fun s hs => h s (List.mem_cons_of_mem _ hs)) acc

theorem objPs_unsupported (o : PyObject) (opt : Options)
    (h : ∀ sp ∈ o.splines, sp.type ≠ "BEZIER" ∧ sp.type ≠ "POLY") :
    objPs o opt = Except.ok "" :=
  foldSplines_unsupported o opt o.splines h ""

theorem writeObjectStr_comment {o : PyObject} (emptD : List (String × List PyObject))
    (opt : Options) (h1 : o.type = "CURVE") (hps : objPs o opt = Except.ok "") :
    writeObjectStr o emptD opt = Except.ok ("% " ++ o.name ++ "\n") := by
  rw [writeObjectStr, if_neg (by simp [h1]), if_pos h1, hps, exceptBind_ok, if_pos rfl]
  rfl

theorem writeObjectStr_ok {o : PyObject} (emptD : List (String × List PyObject))
    (opt : Options) {ps : String}
    (h1 : o.type = "CURVE") (hps : objPs o opt = Except.ok ps) :
    ∃ out, writeObjectStr o emptD opt = Except.ok out := by
  rw [writeObjectStr, if_neg (by simp [h1]), if_pos h1, hps, exceptBind_ok]
  by_cases h0 : ps = ""
  · refine ⟨"% " ++ o.name ++ "\n", ?_⟩
    rw [if_pos h0]
    rfl
  · rw [if_neg h0]
    by_cases hc : (50 < (pyJoin "," (objOptions o opt ps)).length ∨
        emptStr o emptD opt ≠ "")
    · exact ⟨_, if_pos hc⟩
    · exact ⟨_, if_neg hc⟩

/-! ### Lemmas about the option list -/

theorem ne_fill_of_head {s : String} {c : Char} {u : List Char}
    (hs : s.data = c :: u) (hc : c ≠ 'f') : s ≠ "fill" := by
  intro h
  rw [h] at hs
  have h2 : ('f' : Char) = c := by
    have h3 : ['f', 'i', 'l', 'l'] = c :: u := hs
    injection h3
  exact hc h2.symm

theorem mem_ite_singleton {α : Type} {c : Prop} [Decidable c] {x a : α}
    (h : x ∈ (if c then [a] else [])) : x = a := by
  split at h
  · simpa using h
  · simp at h

theorem transformOpts_ne_fill (o : PyObject) : ∀ s ∈ transformOpts o, s ≠ "fill" := by
  intro s hs
  unfold transformOpts at hs
  rcases List.mem_append.mp hs with h1 | h8
  rotate_left
  · have hx := mem_ite_singleton h8
    subst hx
    exact ne_fill_of_head (c := 'y') (u := "scale=".data ++ (fmt4 o.scaleY).data)
      (by simp [String.data_append]) (by decide)
  rcases List.mem_append.mp h1 with h2 | h7
  rotate_left
  · have hx := mem_ite_singleton h7
    subst hx
    exact ne_fill_of_head (c := 'x') (u := "scale=".data ++ (fmt4 o.scaleX).data)
      (by simp [String.data_append]) (by decide)
  rcases List.mem_append.mp h2 with h3 | h6
  rotate_left
  · have hx := mem_ite_singleton h6
    subst hx
    exact ne_fill_of_head (c := 'r') (u := "otate=".data ++ (fmt4 o.rotZ).data)
      (by simp [String.data_append]) (by decide)
  rcases List.mem_append.mp h3 with h4 | h5
  · have hx := mem_ite_singleton h4
    subst hx
    exact ne_fill_of_head (c := 'x')
      (u := "shift=".data ++ ((fmt4 o.locX).data ++ "cm".data))
      (by simp [String.data_append]) (by decide)
  · have hx := mem_ite_singleton h5
    subst hx
    exact ne_fill_of_head (c := 'y')
      (u := "shift=".data ++ ((fmt4 o.locY).data ++ "cm".data))
      (by simp [String.data_append]) (by decide)

theorem strStarts_cycle_lparen (t : List Char) :
    strStarts "cycle".data ('(' :: t) = false := rfl

theorem objOptions_count_fill {o : PyObject} {opt : Options} {ps : String}
    (hfill : opt.FILL_CLOSED_CURVE = true)
    (hfind : 0 < pyFind "cycle".data ps.data)
    (hstyle : "fill" ∉ get_property o "style")
    (hmat : ∀ m : PyMaterial, firstMat (exceptD o.data_materials []) = some m →
      tikzify m.name ≠ "fill") :
    List.count "fill" (objOptions o opt ps) = 1 := by
  unfold objOptions
  rw [List.count_append, List.count_append, List.count_append, List.count_append]
  have h1 : List.count "fill" (if opt.DRAW_CURVE then ["draw"] else []) = 0 := by
    split
    · decide
    · decide
  have h2 : List.count "fill"
      (if opt.FILL_CLOSED_CURVE ∧ 0 < pyFind "cycle".data ps.data then ["fill"] else []) = 1 := by
    rw [if_pos ⟨hfill, hfind⟩]
    decide
  have h3 : List.count "fill" (if opt.TRANSFORM_CURVE then transformOpts o else []) = 0 := by
    split
    · exact List.count_eq_zero.mpr (fun hmem => transformOpts_ne_fill o "fill" hmem rfl)
    · decide
  have h4 : List.count "fill"
      (if opt.EXPORT_MATERIALS then
        match firstMat (exceptD o.data_materials []) with
        | some m => [tikzify m.name]
        | none => []
       else []) = 0 := by
    split
    · cases hfm : firstMat (exceptD o.data_materials []) with
      | none => simp
      | some m =>
        have hz : List.count "fill" [tikzify m.name] = 0 := by
          refine List.count_eq_zero.mpr ?_
          intro hmem
          simp only [List.mem_singleton] at hmem
          exact hmat m hfm hmem.symm
        exact hz
    · decide
  have h5 : List.count "fill" (get_property o "style") = 0 := List.count_eq_zero.mpr hstyle
  rw [h1, h2, h3, h4, h5]

/-! ### Rotation of the handle list for closed Bezier splines -/

theorem bezRotate {sp : Spline} (hcyc : sp.use_cyclic_u = true)
    (hne : sp.bezier_points ≠ []) :
    bezHandles2 sp = Except.ok ((bezRawHandles sp).rotate 1) ∧
    bezKnots2 sp = Except.ok (bezKnots sp ++ (bezKnots sp).take 1) := by
  obtain ⟨p0, rest, hps⟩ : ∃ p0 rest, sp.bezier_points = p0 :: rest := by
    cases h : sp.bezier_points with
    | nil => exact absurd h hne
    | cons a l => exact ⟨a, l, rfl⟩
  have hraw : bezRawHandles sp = p0.handle_left :: (p0.handle_right ::
      rest.flatMap (fun p => [p.handle_left, p.handle_right])) := by
    simp [bezRawHandles, hps]
  have hknots : bezKnots sp = bezPair p0.co :: rest.map (fun p => bezPair p.co) := by
    simp [bezKnots, hps]
  constructor
  · rw [bezHandles2, if_pos hcyc, hraw, pyIndex_cons, exceptBind_ok]
    rw [show (p0.handle_left :: (p0.handle_right ::
        rest.flatMap (fun p => [p.handle_left, p.handle_right]))).rotate 1 =
        (p0.handle_right :: rest.flatMap (fun p => [p.handle_left, p.handle_right])) ++
        [p0.handle_left] from by rw [List.rotate_cons_succ, List.rotate_zero]]
    rfl
  · rw [bezKnots2, hknots, if_pos hcyc, pyIndex_cons, exceptBind_ok]
    rfl

/-! ### Unfolding the export entry point on successful runs -/

theorem writeTex_unfold (g : MatTable) (objs : List PyObject)
    (scn : List (String × String)) (opt : Options) (fileOk clipOk : Bool)
    (p : String × MatTable) (mc : String)
    (hne : objs ≠ [])
    (hfold : foldObjects (empDictOf objs) opt g (zSort objs) = Except.ok p)
    (hmat : matCodeOf p.2 opt = Except.ok mc) :
    writeTex g objs scn opt fileOk clipOk =
      (if ¬ opt.CLIPBOARD_OUTPUT then
        if fileOk then Except.ok ⟨"File sucesfully writen",
          some (fileHeader ++ assembleDoc opt ((scn.lookup "preamble").getD "") mc p.1),
          none, p.2⟩
        else Except.ok ⟨"Failed to write file", none, none, p.2⟩
      else if clipOk then Except.ok ⟨"tikz_export ended ...", none,
          some (assembleDoc opt ((scn.lookup "preamble").getD "") mc p.1), p.2⟩
      else Except.ok ⟨"Failed  to write to clipboard", none, none, p.2⟩) := by
  rw [writeTex, if_neg (by simp [hne])]
  simp only [hfold, exceptBind_ok, hmat]

theorem writeObject_table {tbl : MatTable} {o : PyObject}
    {emptD : List (String × List PyObject)} {opt : Options} {p1 : String × MatTable}
    (hw : writeObject tbl o emptD opt = Except.ok p1) : p1.2 = objRegister tbl o opt := by
  rw [writeObject] at hw
  cases h : writeObjectStr o emptD opt with
  | error e => rw [h] at hw; exact absurd hw (by simp [Bind.bind, Except.bind])
  | ok s =>
    rw [h, exceptBind_ok] at hw
    have : (s, objRegister tbl o opt) = p1 := by
      exact congrArg (fun r => match r with
        | Except.ok v => v
        | Except.error _ => (s, objRegister tbl o opt)) hw
    rw [← this]

theorem foldObjects_keys_mono (emptD : List (String × List PyObject)) (opt : Options) :
    ∀ (l : List PyObject) (tbl : MatTable) (p : String × MatTable),
      foldObjects emptD opt tbl l = Except.ok p →
      ∀ k ∈ keysOf tbl, k ∈ keysOf p.2 := by
  intro l
  induction l with
  | nil =>
    intro tbl p hp k hk
    have : ("", tbl) = p := by
      exact congrArg (fun r => match r with
        | Except.ok v => v
        | Except.error _ => ("", tbl)) hp
    rw [← this]
    exact hk
  | cons o rest ih =>
    intro tbl p hp k hk
    rw [foldObjects] at hp
    cases hw : writeObject tbl o emptD opt with
    | error e => rw [hw] at hp; exact absurd hp (by simp [Bind.bind, Except.bind])
    | ok p1 =>
      rw [hw, exceptBind_ok] at hp
      cases hf : foldObjects emptD opt p1.2 rest with
      | error e => rw [hf] at hp; exact absurd hp (by simp [Bind.bind, Except.bind])
      | ok q =>
        rw [hf, exceptBind_ok] at hp
        have hq : (p1.1 ++ q.1, q.2) = p := by
          exact congrArg (fun r => match r with
            | Except.ok v => v
            | Except.error _ => (p1.1 ++ q.1, q.2)) hp
        have hk1 : k ∈ keysOf p1.2 := by
          rw [writeObject_table hw]
          exact keysOf_subset_objRegister tbl o opt k hk
        have := ih p1.2 q hf k hk1
        rw [← hq]
        exact this

/-! ### Concrete scenes used by the claim witnesses and counterexamples -/

def idMat : PyMatrixT := ⟨0, 0, 0⟩

/-- All options off. -/
def optBase : Options :=
  ⟨false, false, false, false, false, false, false, false, false, false, false⟩

/-- The closed polyline of the spec's exactness test: (0,0), (1,0), (1,1). -/
def polySpline3 : Spline := ⟨"POLY", [], [⟨0, 0⟩, ⟨1, 0⟩, ⟨1, 1⟩], true⟩

def objPoly : PyObject := ⟨"P", 0, 0, 0, 0, 1, 1, 1, "CURVE", [polySpline3],
  Except.ok [], [], [], none, idMat, idMat, idMat⟩

/-- A one-point open Bezier spline (the minimal serializable curve). -/
def bzOne : Spline := ⟨"BEZIER", [⟨⟨0, 0⟩, ⟨0, 0⟩, ⟨0, 0⟩⟩], [], false⟩

def objB : PyObject := ⟨"B", 0, 0, 0, 0, 1, 1, 1, "CURVE", [bzOne],
  Except.ok [], [], [], none, idMat, idMat, idMat⟩

/-- A two-point closed Bezier spline. -/
def bzClosed : Spline :=
  ⟨"BEZIER", [⟨⟨mkRat (-1) 1, 0⟩, ⟨0, 0⟩, ⟨1, 0⟩⟩, ⟨⟨2, 1⟩, ⟨3, 1⟩, ⟨4, 1⟩⟩], [], true⟩

def objBC : PyObject := ⟨"BC", 0, 0, 0, 0, 1, 1, 1, "CURVE", [bzClosed],
  Except.ok [], [], [], none, idMat, idMat, idMat⟩

/-- An object whose only spline is of unsupported kind. -/
def objNurbs : PyObject := ⟨"N", 0, 0, 0, 0, 1, 1, 1, "CURVE",
  [⟨"NURBS", [], [], false⟩], Except.ok [], [], [], none, idMat, idMat, idMat⟩

/-- A well-behaved material. -/
def matA : PyMaterial := ⟨"matA", [], Except.ok [1, 0, 0], Except.ok [0, 0, 0],
  Except.ok 1, Except.ok 0⟩

/-- A material whose old-API attribute reads raise (as they do on a modern
host, which has no `rgbCol`): reading it during `write_materials` raises. -/
def matBad : PyMaterial := ⟨"bad", [], Except.error "AttributeError",
  Except.error "AttributeError", Except.error "AttributeError",
  Except.error "AttributeError"⟩

def objMatA : PyObject := ⟨"A", 0, 0, 0, 0, 1, 1, 1, "CURVE", [bzOne],
  Except.ok [some matA], [], [], none, idMat, idMat, idMat⟩

def objMatBad : PyObject := ⟨"A", 0, 0, 0, 0, 1, 1, 1, "CURVE", [bzOne],
  Except.ok [some matBad], [], [], none, idMat, idMat, idMat⟩

def objPlain : PyObject := ⟨"C", 0, 0, 0, 0, 1, 1, 1, "CURVE", [bzOne],
  Except.ok [], [], [], none, idMat, idMat, idMat⟩

/-- Three depth-sorted test objects at z = 0.5, z = -1, z = 2. -/
def objZhalf : PyObject := ⟨"Zh", 0, 0, 0, 0, 1, 1, 1, "CURVE", [bzOne],
  Except.ok [], [], [], none, ⟨0, 0, mkRat 1 2⟩, idMat, idMat⟩

def objZneg : PyObject := ⟨"Zn", 0, 0, 0, 0, 1, 1, 1, "CURVE", [bzOne],
  Except.ok [], [], [], none, ⟨0, 0, mkRat (-1) 1⟩, idMat, idMat⟩

def objZtwo : PyObject := ⟨"Zt", 0, 0, 0, 0, 1, 1, 1, "CURVE", [bzOne],
  Except.ok [], [], [], none, ⟨0, 0, 2⟩, idMat, idMat⟩

/-- A top-level marker (Empty) at (1.234, 5). -/
def objEmpty : PyObject := ⟨"E", 0, 0, 0, 0, 1, 1, 1, "Empty", [],
  Except.ok [], [], [], none, ⟨mkRat 1234 1000, 5, 0⟩, idMat, idMat⟩

def optStandCode : Options := { optBase with STANDALONE := true, CODE_ONLY := true }

def optMats : Options := { optBase with EXPORT_MATERIALS := true }

def optFill : Options := { optBase with DRAW_CURVE := true, FILL_CLOSED_CURVE := true }

def optCode : Options := { optBase with CODE_ONLY := true }

def optEmpt : Options := { optBase with EMPTIES := true }

/-- The document a successful non-clipboard export wrote to the file sink. -/
def exportedDoc : Except String ExportResult → String
  | Except.ok r => r.fileWritten.getD ""
  | Except.error _ => ""

/-- The `used_materials` global after a call (unchanged model on error). -/
def resTable : Except String ExportResult → MatTable
  | Except.ok r => r.finalMaterials
  | Except.error _ => []

/-! ### The claims -/

/-- Claim C8: on an empty selection the export returns the empty-selection
error message as its terminal status, aborts before any processing, and
writes nothing to the file or clipboard sink (and leaves the material
global untouched). -/
theorem c8_empty_selection (g : MatTable) (scn : List (String × String)) (opt : Options)
    (fileOk clipOk : Bool) :
    writeTex g [] scn opt fileOk clipOk =
      Except.ok ⟨"ERROR: Please select at least one curve", none, none, g⟩ := rfl

/-- Claim C9: a curve object all of whose splines are of unsupported kinds
contributes only its name comment — no `\path` statement at all — and the
object loop neither raises nor disturbs the output of the remaining
objects (its contribution is just that comment prepended, with the
material table unchanged). -/
theorem c9_unsupported_splines (o : PyObject) (emptD : List (String × List PyObject))
    (opt : Options)
    (h1 : o.type = "CURVE")
    (hall : ∀ sp ∈ o.splines, sp.type ≠ "BEZIER" ∧ sp.type ≠ "POLY")
    (hname : '\\' ∉ o.name.data) :
    writeObjectStr o emptD opt = Except.ok ("% " ++ o.name ++ "\n") ∧
    pyFind "\\path".data ("% " ++ o.name ++ "\n").data = -1 ∧
    (∀ (tbl : MatTable) (rest : List PyObject),
      foldObjects emptD opt tbl (o :: rest) =
        (foldObjects emptD opt tbl rest).map
          (fun q => ("% " ++ o.name ++ "\n" ++ q.1, q.2))) := by
  have hps := objPs_unsupported o opt hall
  have hcom := writeObjectStr_comment emptD opt h1 hps
  refine ⟨hcom, ?_, ?_⟩
  · apply pyFind_eq_neg_one
    intro hc
    have hmem : '\\' ∈ ("% " ++ o.name ++ "\n").data := mem_of_containsL hc (by decide)
    rw [String.data_append, String.data_append] at hmem
    rcases List.mem_append.mp hmem with hm1 | hm2
    · rcases List.mem_append.mp hm1 with hm3 | hm4
      · exact absurd hm3 (by decide)
      · exact hname hm4
    · exact absurd hm2 (by decide)
  · intro tbl rest
    have hne : objPsNonempty o opt = false := by
      rw [objPsNonempty, hps]
      simp
    have hreg : objRegister tbl o opt = tbl := by
      rw [objRegister, if_neg (by simp [hne])]
    have hw : writeObject tbl o emptD opt = Except.ok ("% " ++ o.name ++ "\n", tbl) := by
      rw [writeObject, hcom, exceptBind_ok, hreg]
      rfl
    rw [foldObjects, hw, exceptBind_ok]
    cases hf : foldObjects emptD opt tbl rest with
    | error e => rfl
    | ok q => rfl

/-- Claim C9, witness: a curve whose only spline is a NURBS spline. -/
theorem c9_witness :
    writeObjectStr objNurbs [] optBase = Except.ok ("% " ++ objNurbs.name ++ "\n") ∧
    pyFind "\\path".data ("% " ++ objNurbs.name ++ "\n").data = -1 ∧
    (∀ (tbl : MatTable) (rest : List PyObject),
      foldObjects [] optBase tbl (objNurbs :: rest) =
        (foldObjects [] optBase tbl rest).map
          (fun q => ("% " ++ objNurbs.name ++ "\n" ++ q.1, q.2))) :=
  c9_unsupported_splines objNurbs [] optBase (by decide) (by decide) (by decide)

set_option maxRecDepth 40000 in
/-- Claim C3 (code bug): for the spec's closed polyline (0,0), (1,0), (1,1)
with `WRAP_LINES` and `USE_PLOTPATH` disabled, the code emits the broken
f-string rendering `(+0.0.4f,+0.0.4f) -- ...` (the `.4f` is literal text)
rather than the specified `(+0.0000,+0.0000) -- ...` path expression,
which occurs nowhere in the output. -/
theorem c3_polyline_formatting_bug :
    writeObjectStr objPoly [] optBase = Except.ok
      ("% P\n\\path[] (+0.0.4f,+0.0.4f) -- (+1.0.4f,+0.0.4f) -- (+1.0.4f,+1.0.4f) -- " ++
       "(+0.0.4f,+0.0.4f) -- cycle;\n") ∧
    pyFind ("(+0.0000,+0.0000) -- (+1.0000,+0.0000) -- (+1.0000,+1.0000) -- " ++
        "(+0.0000,+0.0000) -- cycle").data
      ("% P\n\\path[] (+0.0.4f,+0.0.4f) -- (+1.0.4f,+0.0.4f) -- (+1.0.4f,+1.0.4f) -- " ++
       "(+0.0.4f,+0.0.4f) -- cycle;\n").data = -1 := by
  exact ⟨rfl, by decide⟩

/-- Claim C4, counterexample: a Bezier knot at (-1.234, 2) is emitted as
`(+-1.2340,+2.0000)` — the literal `+` prefix precedes the `%.4f`
rendering — not in the claimed signed form `(-1.2340,+2.0000)`; and a
top-level marker at (1.234, 5) is emitted with plain `%.4f` and no sign
at all. -/
theorem c4_counterexample :
    bezPair ⟨mkRat (-1234) 1000, 2⟩ = "(+-1.2340,+2.0000)" ∧
    "(+-1.2340,+2.0000)" ≠ "(-1.2340,+2.0000)" ∧
    writeObjectStr objEmpty [] optEmpt =
      Except.ok "\\coordinate (E) at (1.2340,5.0000);\n" ∧
    '+' ∉ "\\coordinate (E) at (1.2340,5.0000);\n".data := by
  exact ⟨rfl, by decide, rfl, by decide⟩

/-- Claim C4, amended: coordinates are not uniformly signed fixed-point.
Bezier pairs are a literal `(+` before the `%.4f` rendering, so
sufficiently negative values start `(+-`; the `%.4f` model always renders
exactly four decimal digits and never a `+` sign (hence the unsigned
top-level marker coordinates); polyline coordinates keep the literal
`.4f` of the broken f-string. -/
theorem c4_coordinate_formats :
    (∀ x y : ℚ, x ≤ -(1 / 10000) → strStarts "(+-".data (bezPair ⟨x, y⟩).data = true) ∧
    (∀ q : ℚ, ∃ pre d1 d2 d3 d4, (fmt4 q).data = pre ++ ['.', d1, d2, d3, d4] ∧
      d1 ∈ decDigits ∧ d2 ∈ decDigits ∧ d3 ∈ decDigits ∧ d4 ∈ decDigits) ∧
    (∀ p : Pt, containsL ".4f".data (polyPair p).data) ∧
    (∀ q : ℚ, '+' ∉ (fmt4 q).data) := by
  refine ⟨?_, fmt4_frac, ?_, fmt4_no_plus⟩
  · intro x y hx
    obtain ⟨t, ht⟩ := fmt4_neg hx
    rw [bezPair_data]
    show strStarts "(+-".data ('(' :: '+' :: ((fmt4 x).data ++ _)) = true
    rw [ht]
    simp [strStarts]
  · intro p
    refine ⟨'(' :: '+' :: (decRepr p.x).data,
            ',' :: '+' :: ((decRepr p.y).data ++ ['.', '4', 'f', ')']), ?_⟩
    rw [polyPair_data]
    simp

/-- Claim C4, amended, witness at concrete coordinates. -/
theorem c4_witness :
    strStarts "(+-".data (bezPair ⟨-1, 0⟩).data = true ∧
    (∃ pre d1 d2 d3 d4, (fmt4 1).data = pre ++ ['.', d1, d2, d3, d4] ∧
      d1 ∈ decDigits ∧ d2 ∈ decDigits ∧ d3 ∈ decDigits ∧ d4 ∈ decDigits) ∧
    containsL ".4f".data (polyPair ⟨0, 0⟩).data ∧
    '+' ∉ (fmt4 (mkRat 1234 1000)).data :=
  ⟨c4_coordinate_formats.1 (-1) 0 (by norm_num), c4_coordinate_formats.2.1 1,
   c4_coordinate_formats.2.2.1 ⟨0, 0⟩, c4_coordinate_formats.2.2.2 (mkRat 1234 1000)⟩

set_option maxRecDepth 40000 in
/-- Claim C1, counterexample: with both STANDALONE and CODE_ONLY set, the
assembled document is the standalone document (the source tests
STANDALONE first), so it contains the `\begin{document}` wrapper token
and is not the bare path statements the claim requires. -/
theorem c1_counterexample :
    0 ≤ pyFind "\\begin\x7bdocument\x7d".data
      (exportedDoc (writeTex [] [objB] [] optStandCode true true)).data ∧
    exportedDoc (writeTex [] [objB] [] optStandCode true true) ≠
      fileHeader ++ "% B\n\\path[] (+0.0000,+0.0000);\n" := by
  exact ⟨by decide, by decide⟩

/-- Claim C1, amended: template selection tests STANDALONE first, so with
both flags set the standalone template (containing the document wrapper)
is chosen; the code-only template is used only when CODE_ONLY is set and
STANDALONE is not. -/
theorem c1_template_precedence (opt : Options) (pre mc code : String) :
    (opt.STANDALONE = true →
      assembleDoc opt pre mc code = standaloneTemplate pre mc code ∧
      0 ≤ pyFind "\\begin\x7bdocument\x7d".data (assembleDoc opt pre mc code).data) ∧
    (opt.STANDALONE = false → opt.CODE_ONLY = true →
      assembleDoc opt pre mc code = code) := by
  constructor
  · intro hs
    refine ⟨by rw [assembleDoc, if_pos hs], ?_⟩
    rw [assembleDoc, if_pos hs]
    apply pyFind_nonneg_of_contains
    refine ⟨("\n\\documentclass\x7barticle\x7d\n\\usepackage\x7btikz\x7d\n" ++ pre ++ "\n" ++
      mc ++ "\n").data,
      ("\n\\begin\x7btikzpicture\x7d\n" ++ code ++
       "\n\\end\x7btikzpicture\x7d\n\\end\x7bdocument\x7d\n").data, ?_⟩
    simp [standaloneTemplate, String.data_append]
  · intro hs hc
    rw [assembleDoc, if_neg (by simp [hs]), if_pos hc]

/-- Claim C1, amended, witness: the precedence at concrete arguments. -/
theorem c1_witness :
    (assembleDoc optStandCode "p" "m" "c" = standaloneTemplate "p" "m" "c" ∧
      0 ≤ pyFind "\\begin\x7bdocument\x7d".data
        (assembleDoc optStandCode "p" "m" "c").data) ∧
    assembleDoc optCode "p" "m" "c" = "c" :=
  ⟨(c1_template_precedence optStandCode "p" "m" "c").1 rfl,
   (c1_template_precedence optCode "p" "m" "c").2 rfl rfl⟩

set_option maxRecDepth 40000 in
/-- Claim C2, counterexample: the module global `used_materials` is never
reset.  A first export of a curve using material matA leaves it in the
global table; a second export whose only object references no material at
all still emits matA's style definition, so the emitted definitions do
not depend only on the materials referenced during that call. -/
theorem c2_counterexample :
    0 ≤ pyFind "\\tikzstyle\x7bmatA\x7d".data
      (exportedDoc (writeTex (resTable (writeTex [] [objMatA] [] optMats true true))
        [objPlain] [] optMats true true)).data ∧
    firstMat (exceptD objPlain.data_materials []) = none := by
  exact ⟨by decide, rfl⟩

/-- Claim C2, amended: `used_materials` is a process-lifetime global that
`write_tex` never clears: every key present when the call starts is still
present in the table that `write_materials` renders, and the document
written by a successful materials export is assembled from that whole
table. -/
theorem c2_global_table_persists (g : MatTable) (objs : List PyObject)
    (scn : List (String × String)) (opt : Options) (p : String × MatTable) (mc : String)
    (hne : objs ≠ [])
    (hfold : foldObjects (empDictOf objs) opt g (zSort objs) = Except.ok p)
    (hmat : matCodeOf p.2 opt = Except.ok mc)
    (hcb : opt.CLIPBOARD_OUTPUT = false) :
    (∀ k ∈ keysOf g, k ∈ keysOf p.2) ∧
    writeTex g objs scn opt true true = Except.ok ⟨"File sucesfully writen",
      some (fileHeader ++ assembleDoc opt ((scn.lookup "preamble").getD "") mc p.1),
      none, p.2⟩ := by
  refine ⟨foldObjects_keys_mono _ opt (zSort objs) g p hfold, ?_⟩
  rw [writeTex_unfold g objs scn opt true true p mc hne hfold hmat]
  rw [if_pos (by simp [hcb]), if_pos rfl]

/-- Claim C2, amended, witness: a second invocation starting from a global
table already holding matA keeps and renders matA. -/
theorem c2_witness :
    (∀ k ∈ keysOf [("matA", matA)], k ∈ keysOf (("% C\n\\path[] (+0.0000,+0.0000);\n",
      ([("matA", matA)] : MatTable)) : String × MatTable).2) ∧
    writeTex [("matA", matA)] [objPlain] [] optMats true true =
      Except.ok ⟨"File sucesfully writen",
        some (fileHeader ++ assembleDoc optMats ((([] : List (String × String)).lookup
          "preamble").getD "")
          ("% Materials section \n\\definecolor\x7bmatA_col\x7d\x7brgb\x7d\x7b1.0,0.0,0.0\x7d\n\\tikzstyle\x7bmatA\x7d= [matA_col]\n")
          ("% C\n\\path[] (+0.0000,+0.0000);\n")),
        none, [("matA", matA)]⟩ :=
  c2_global_table_persists [("matA", matA)] [objPlain] [] optMats
    ("% C\n\\path[] (+0.0000,+0.0000);\n", [("matA", matA)])
    ("% Materials section \n\\definecolor\x7bmatA_col\x7d\x7brgb\x7d\x7b1.0,0.0,0.0\x7d\n\\tikzstyle\x7bmatA\x7d= [matA_col]\n")
    (List.cons_ne_nil _ _) rfl rfl rfl

/-- Claim C5: the emitted per-object path statements follow the stable
ascending depth sort: the sorted selection is pairwise ordered by the
depth coordinate, is a permutation of the selection, preserves the
relative order of objects with equal depth, and the document written by a
code-only export is exactly the concatenation of the per-object outputs
in that sorted order. -/
theorem c5_draw_order (g : MatTable) (objs : List PyObject)
    (scn : List (String × String)) (opt : Options)
    (hok : ∀ o ∈ objs, ∃ s, writeObjectStr o (empDictOf objs) opt = Except.ok s)
    (hcb : opt.CLIPBOARD_OUTPUT = false) (hst : opt.STANDALONE = false)
    (hco : opt.CODE_ONLY = true) (hem : opt.EXPORT_MATERIALS = false)
    (hne : objs ≠ []) :
    List.Pairwise zle (zSort objs) ∧
    (zSort objs).Perm objs ∧
    (∀ c : ℚ, (zSort objs).filter (fun o => decide (zOf o = c)) =
      objs.filter (fun o => decide (zOf o = c))) ∧
    writeTex g objs scn opt true true = Except.ok ⟨"File sucesfully writen",
      some (fileHeader ++ strConcat ((zSort objs).map
        (fun o => okStr (writeObjectStr o (empDictOf objs) opt)))), none,
      regFold opt g (zSort objs)⟩ := by
  have hok' : ∀ o ∈ zSort objs, ∃ s, writeObjectStr o (empDictOf objs) opt = Except.ok s :=
    fun o ho => hok o ((zSort_perm objs).mem_iff.mp ho)
  have hfold := foldObjects_join (empDictOf objs) opt (zSort objs) hok' g
  have hmc : matCodeOf (regFold opt g (zSort objs)) opt = Except.ok "" := by
    rw [matCodeOf, if_neg (by simp [hem])]
    rfl
  refine ⟨zSort_pairwise objs, zSort_perm objs, fun c => zSort_filter objs c, ?_⟩
  rw [writeTex_unfold g objs scn opt true true _ "" hne hfold hmc]
  rw [if_pos (by simp [hcb]), if_pos rfl, assembleDoc, if_neg (by simp [hst]), if_pos hco]

/-- Claim C5, witness: the spec's three objects at z = 0.5, -1, 2 are
emitted farthest first. -/
theorem c5_witness :
    List.Pairwise zle (zSort [objZhalf, objZneg, objZtwo]) ∧
    (zSort [objZhalf, objZneg, objZtwo]).Perm [objZhalf, objZneg, objZtwo] ∧
    (∀ c : ℚ, (zSort [objZhalf, objZneg, objZtwo]).filter (fun o => decide (zOf o = c)) =
      [objZhalf, objZneg, objZtwo].filter (fun o => decide (zOf o = c))) ∧
    writeTex [] [objZhalf, objZneg, objZtwo] [] optCode true true =
      Except.ok ⟨"File sucesfully writen",
        some (fileHeader ++ strConcat ((zSort [objZhalf, objZneg, objZtwo]).map
          (fun o => okStr (writeObjectStr o (empDictOf [objZhalf, objZneg, objZtwo])
            optCode)))), none,
        regFold optCode [] (zSort [objZhalf, objZneg, objZtwo])⟩ :=
  c5_draw_order [] [objZhalf, objZneg, objZtwo] [] optCode
    (by
      intro o ho
      have ho2 : o ∈ [objZhalf, objZneg, objZtwo] := ho
      rcases List.mem_cons.mp ho2 with rfl | ho3
      · exact ⟨_, rfl⟩
      · rcases List.mem_cons.mp ho3 with rfl | ho4
        · exact ⟨_, rfl⟩
        · rcases List.mem_cons.mp ho4 with rfl | ho5
          · exact ⟨_, rfl⟩
          · exact absurd ho5 (List.not_mem_nil o))
    rfl rfl rfl rfl (List.cons_ne_nil _ _)

/-- Claim C6: for an object containing a closed Bezier spline (plot-path
mode off, every Bezier/polyline spline nonempty as on a real host): the
serializer uses the handle sequence rotated by one and the knot list with
the first knot appended, the resulting path expression contains the
`cycle` marker, and with FILL_CLOSED_CURVE set the option list contains
the fill flag exactly once (given that no custom style token or material
name is itself the string "fill"). -/
theorem c6_closed_bezier (o : PyObject) (emptD : List (String × List PyObject))
    (opt : Options)
    (h1 : o.type = "CURVE")
    (hU : opt.USE_PLOTPATH = false)
    (hfill : opt.FILL_CLOSED_CURVE = true)
    (hb : ∀ sp ∈ o.splines, sp.type = "BEZIER" → sp.bezier_points ≠ [])
    (hp : ∀ sp ∈ o.splines, sp.type = "POLY" → sp.SplinePoint ≠ [])
    (hcyc : ∃ sp ∈ o.splines, sp.type = "BEZIER" ∧ sp.use_cyclic_u = true)
    (hstyle : "fill" ∉ get_property o "style")
    (hmat : ∀ m : PyMaterial, firstMat (exceptD o.data_materials []) = some m →
      tikzify m.name ≠ "fill") :
    (∀ sp ∈ o.splines, sp.type = "BEZIER" → sp.use_cyclic_u = true →
      bezHandles2 sp = Except.ok ((bezRawHandles sp).rotate 1) ∧
      bezKnots2 sp = Except.ok (bezKnots sp ++ (bezKnots sp).take 1)) ∧
    (∃ ps, objPs o opt = Except.ok ps ∧ containsL "cycle".data ps.data ∧
      List.count "fill" (objOptions o opt ps) = 1 ∧
      ∃ out, writeObjectStr o emptD opt = Except.ok out) := by
  refine ⟨fun sp hs hsb hsc => bezRotate hsc (hb sp hs hsb), ?_⟩
  obtain ⟨ps, t, hps, ht, hcont⟩ := objPs_props o opt hU hb hp hcyc
  have hfind : 0 < pyFind "cycle".data ps.data := by
    apply pyFind_pos hcont
    rw [ht]
    exact strStarts_cycle_lparen t
  exact ⟨ps, hps, hcont, objOptions_count_fill hfill hfind hstyle hmat,
    writeObjectStr_ok emptD opt h1 hps⟩

/-- Claim C6, witness: a two-point closed Bezier curve with draw and fill
enabled. -/
theorem c6_witness :
    (∀ sp ∈ objBC.splines, sp.type = "BEZIER" → sp.use_cyclic_u = true →
      bezHandles2 sp = Except.ok ((bezRawHandles sp).rotate 1) ∧
      bezKnots2 sp = Except.ok (bezKnots sp ++ (bezKnots sp).take 1)) ∧
    (∃ ps, objPs objBC optFill = Except.ok ps ∧ containsL "cycle".data ps.data ∧
      List.count "fill" (objOptions objBC optFill ps) = 1 ∧
      ∃ out, writeObjectStr objBC [] optFill = Except.ok out) :=
  c6_closed_bezier objBC [] optFill rfl rfl rfl (by decide) (by decide) (by decide)
    (by decide) (fun m hm => Option.noConfusion hm)

/-- Claim C7: material registration is idempotent and first-seen ordered.
Registering any sequence of materials in the (initially empty) table
yields exactly the first-seen-deduplicated sequence of transliterated
names as keys, without duplicates, and `write_materials` emits exactly
one definition chunk per table entry, in that order. -/
theorem c7_material_registration (regs : List PyMaterial) (d : Bool)
    (hok : ∀ m ∈ (registerList [] regs).map Prod.snd, ∃ s, matChunk d m = Except.ok s) :
    keysOf (registerList [] regs) =
      dedupKeys [] (regs.map (fun m => tikzify m.name)) ∧
    (keysOf (registerList [] regs)).Nodup ∧
    writeMaterials (registerList [] regs) d =
      Except.ok ("% Materials section \n" ++
        strConcat (((registerList [] regs).map Prod.snd).map
          (fun m => okStr (matChunk d m)))) := by
  refine ⟨keysOf_registerList regs [], ?_, writeMaterials_join d _ hok⟩
  rw [keysOf_registerList regs []]
  exact dedupKeys_nodup (regs.map (fun m => tikzify m.name)) [] List.nodup_nil

def matDotted : PyMaterial := ⟨"mat.1", [], Except.ok [1, 0, 0], Except.ok [0, 0, 0],
  Except.ok 1, Except.ok 0⟩

def matComma : PyMaterial := ⟨"mat,2", [], Except.ok [0, 1, 0], Except.ok [0, 0, 0],
  Except.ok 1, Except.ok 0⟩

/-- Claim C7, witness: registering mat.1, mat,2, mat.1 again yields two
definitions (names transliterated), the duplicate kept at its first
position. -/
theorem c7_witness :
    keysOf (registerList [] [matDotted, matComma, matDotted]) =
      dedupKeys [] ([matDotted, matComma, matDotted].map (fun m => tikzify m.name)) ∧
    (keysOf (registerList [] [matDotted, matComma, matDotted])).Nodup ∧
    writeMaterials (registerList [] [matDotted, matComma, matDotted]) false =
      Except.ok ("% Materials section \n" ++
        strConcat (((registerList [] [matDotted, matComma, matDotted]).map Prod.snd).map
          (fun m => okStr (matChunk false m)))) :=
  c7_material_registration [matDotted, matComma, matDotted] false (by
    intro m hm
    have hm2 : m ∈ [matDotted, matComma] := hm
    rcases List.mem_cons.mp hm2 with rfl | hm3
    · exact ⟨_, rfl⟩
    · rcases List.mem_cons.mp hm3 with rfl | hm4
      · exact ⟨_, rfl⟩
      · exact absurd hm4 (List.not_mem_nil m))

/-- Claim C10, counterexample: reading a material whose old-API attribute
accesses raise (`rgbCol` is read unguarded inside `write_materials`)
makes the whole export entry point propagate the exception instead of
returning a status string. -/
theorem c10_counterexample :
    writeTex [] [objMatBad] [] optMats true true = Except.error "AttributeError" := rfl

/-- Claim C10, amended: when serialization and material rendering succeed,
the entry point returns one of the five terminal status strings (property
lookups and sink writes are handled locally); but exceptions raised while
serializing splines or while reading material attributes in
`write_materials` are not caught and escape the entry point (see the
counterexample). -/
theorem c10_status_strings (g : MatTable) (objs : List PyObject)
    (scn : List (String × String)) (opt : Options) (fileOk clipOk : Bool)
    (p : String × MatTable) (mc : String)
    (hfold : foldObjects (empDictOf objs) opt g (zSort objs) = Except.ok p)
    (hmat : matCodeOf p.2 opt = Except.ok mc) :
    ∃ r, writeTex g objs scn opt fileOk clipOk = Except.ok r ∧
      r.status ∈ ["ERROR: Please select at least one curve", "File sucesfully writen",
        "Failed to write file", "tikz_export ended ...",
        "Failed  to write to clipboard"] := by
  by_cases hne : objs = []
  · subst hne
    exact ⟨_, rfl, by simp⟩
  · rw [writeTex_unfold g objs scn opt fileOk clipOk p mc hne hfold hmat]
    by_cases hcl : opt.CLIPBOARD_OUTPUT = true
    · rw [if_neg (by simp [hcl])]
      cases clipOk
      · rw [if_neg (by simp)]
        exact ⟨_, rfl, by simp⟩
      · rw [if_pos rfl]
        exact ⟨_, rfl, by simp⟩
    · rw [if_pos (by simp [hcl])]
      cases fileOk
      · rw [if_neg (by simp)]
        exact ⟨_, rfl, by simp⟩
      · rw [if_pos rfl]
        exact ⟨_, rfl, by simp⟩

/-- Claim C10, amended, witness: a successful export returns a status
string from the list. -/
theorem c10_witness :
    ∃ r, writeTex [] [objB] [] optBase true true = Except.ok r ∧
      r.status ∈ ["ERROR: Please select at least one curve", "File sucesfully writen",
        "Failed to write file", "tikz_export ended ...",
        "Failed  to write to clipboard"] :=
  c10_status_strings [] [objB] [] optBase true true
    ("% B\n\\path[] (+0.0000,+0.0000);\n", []) "" rfl rfl

end TikzExport
